import Mathlib

/-!
Verification development for the AudioScribe-AI repository.

The only transcription code under `src/` is the single-shot routine
`transcribeMedia` in `src/services/geminiService.ts`.  It is embedded below as
a pure function over an explicit environment `Env` that supplies the outcomes
of every awaited remote operation (file read, upload, per-attempt status
refresh, content generation) together with an optional progress sink (the
`logCallback` parameter).  The function returns the delivered log lines, a
trace of the effectful calls it performed, and either the transcript or the
thrown error message, mirroring the JavaScript control flow statement by
statement.

The chunk planner described by the specification (`ChunkPlanner.plan`) has no
code in the repository; it is modelled from the spec at the end of the
definitions section and clearly marked as such.
-/

instance {ε α : Type} [DecidableEq ε] [DecidableEq α] : DecidableEq (Except ε α) := fun x y =>
  match x, y with
  | Except.ok a, Except.ok b =>
    if h : a = b then isTrue (by rw [h]) else isFalse (fun hc => h (Except.ok.inj hc))
  | Except.error a, Except.error b =>
    if h : a = b then isTrue (by rw [h]) else isFalse (fun hc => h (Except.error.inj hc))
  | Except.ok _, Except.error _ => isFalse (fun hc => Except.noConfusion hc)
  | Except.error _, Except.ok _ => isFalse (fun hc => Except.noConfusion hc)

/-- Boolean substring test, the embedding of JavaScript
`String.prototype.includes`: `strIncludesAux pat l` decides whether `pat`
occurs as a contiguous run inside `l`. -/
def strIncludesAux (pat : List Char) : List Char → Bool
  | [] => pat.isEmpty
  | c :: rest => pat.isPrefixOf (c :: rest) || strIncludesAux pat rest

/-- Embedding of `message.includes(pat)` from the JavaScript source. -/
def strIncludes (s pat : String) : Bool :=
  strIncludesAux pat.toList s.toList

/-- JavaScript truthiness of an optional string: `undefined`, `null` and the
empty string are falsy, every other string is truthy.  Used for
`if (response.text)` and the `finishReason`/`blockReason` guards. -/
def jsTruthy : Option String → Bool
  | none => false
  | some s => s ≠ ""

/-- One effectful call performed by the pipeline, recorded in order: the
inline file read, the upload call, the 2000 ms sleep and status refresh of
each poll iteration, and the content-generation (inference) call. -/
inductive Ev where
  | readInline : Ev
  | uploadCall : Ev
  | sleep (ms : Nat) : Ev
  | statusCall (attempt : Nat) : Ev
  | generateCall : Ev
deriving DecidableEq, Repr

/-- Observable history of a run: number of sink invocations, the log lines
delivered to the sink so far, and the effectful calls performed. -/
structure Trace where
  logCount : Nat
  logs : List String
  events : List Ev
deriving DecidableEq, Repr

/-- The empty trace a run starts from. -/
def trInit : Trace := { logCount := 0, logs := [], events := [] }

/-- Behaviour of a caller-supplied progress sink (`logCallback`): on its
`k`-th invocation it either throws the given message or accepts the line. -/
structure SinkB where
  throwAt : Nat → Option String

/-- The (already unwrapped) remote file object returned by the upload or by a
status refresh: `uri`, `name`, `mimeType` and `state` fields as read by the
source.  `state` is the raw string compared against `'PROCESSING'` and
`'FAILED'`. -/
structure RemoteFile where
  uri : Option String
  name : String
  mimeType : String
  state : String
deriving DecidableEq, Repr

/-- One response candidate; the source only reads `finishReason` of the first
candidate. -/
structure Candidate where
  finishReason : Option String
deriving DecidableEq, Repr

/-- The `promptFeedback` object; the source only reads `blockReason`. -/
structure PromptFeedback where
  blockReason : Option String
deriving DecidableEq, Repr

/-- The generation response: `text`, `candidates` and `promptFeedback` as
read by the source.  An absent `candidates` field behaves exactly like `[]`
under the source's `candidates && candidates.length > 0` guard, so a plain
list suffices. -/
structure GenResponse where
  text : Option String
  candidates : List Candidate
  promptFeedback : Option PromptFeedback
deriving DecidableEq, Repr

/-- The `contentPart` sent to the model: inline base64 data for small files,
a remote file reference for uploaded ones. -/
inductive ContentPart where
  | inlineData (mimeType data : String) : ContentPart
  | fileData (mimeType fileUri : String) : ContentPart
deriving DecidableEq, Repr

/-- Environment of one `transcribeMedia` call: the relevant fields of the
`File` argument and the outcome of every awaited remote operation.
`Except.error m` means the corresponding `await` threw an error whose
`message` is `m`. -/
structure Env where
  fileSize : Nat
  fileType : String
  fileName : String
  readInline : Except String String
  uploadResult : Except String (Option RemoteFile)
  uploadRespStr : String
  getStatus : Nat → Except String String
  generate : ContentPart → Except String GenResponse

/-- Deliver one log line to the sink, mirroring `if (logCallback)
logCallback(msg)`.  A missing sink is a no-op; a present sink may throw,
which propagates as an error exactly as a JavaScript exception would. -/
def emitLog (sink : Option SinkB) (tr : Trace) (msg : String) : Except String Trace :=
  match sink with
  | none => Except.ok tr
  | some b =>
    match b.throwAt tr.logCount with
    | some e => Except.error e
    | none => Except.ok { tr with logCount := tr.logCount + 1, logs := tr.logs ++ [msg] }

/-- Record one effectful call in the trace. -/
def emitEv (tr : Trace) (e : Ev) : Trace :=
  { tr with events := tr.events ++ [e] }

/-- The trace after a successful sink invocation: one more invocation
counted, the line appended.  This is exactly the `Except.ok` payload of
`emitLog` for an accepting sink. -/
def logBump (tr : Trace) (msg : String) : Trace :=
  { tr with logCount := tr.logCount + 1, logs := tr.logs ++ [msg] }

/-- The inline-vs-upload threshold of the source: `sizeMB < 20` with
`sizeMB = size / (1024*1024)`.  Division of an integer byte count by the
power of two `2^20` is exact in IEEE doubles for any realistic size, so the
float comparison of the source coincides with `size < 20 * 1024 * 1024`. -/
def inlineLimitBytes : Nat := 20 * 1024 * 1024

/-- The message the source substitutes for any caught error whose message
contains `"404"`. -/
def MSG404 : String :=
  "API Error (404). Model not found or API endpoint issue. Trying switching models."

/-- Rendering of `sizeMB.toFixed(2)` used in the two size log lines: the
megabyte value rounded to two decimals by exact rational rounding; no claim
depends on this string. -/
def mbToFixed2 (sizeBytes : Nat) : String :=
  let centi := (sizeBytes * 100 + 524288) / 1048576
  let frac := centi % 100
  toString (centi / 100) ++ "." ++ (if frac < 10 then "0" ++ toString frac else toString frac)

/-- The readiness-polling loop of `transcribeMedia` (source lines 74-89):

```
let attempts = 0;
while (fileState === 'PROCESSING' && attempts < 30) {
  log("Processing file on server... State: " + fileState);
  await sleep(2000);
  try { fileState = (await ai.files.get(...)).state; } catch (e) { /* ignore */ }
  attempts++;
}
```

`getStatus k` is the outcome of the refresh performed in the iteration with
`attempts = k`.  The extra `fuel` argument makes the recursion structural;
the source loop can run at most `30` iterations (its own guard), and
`pollLoop_fuel_stable` below proves that any `fuel ≥ 30 - attempts` yields
the exact loop semantics. -/
def pollLoop (getStatus : Nat → Except String String) (sink : Option SinkB)
    (state : String) (attempts : Nat) (tr : Trace) :
    Nat → Trace × Except String (String × Nat)
  | 0 => (tr, Except.ok (state, attempts))
  | fuel + 1 =>
    if state = "PROCESSING" ∧ attempts < 30 then
      match emitLog sink tr ("Processing file on server... State: " ++ state) with
      | Except.error e => (tr, Except.error e)
      | Except.ok tr1 =>
        let tr2 := emitEv (emitEv tr1 (Ev.sleep 2000)) (Ev.statusCall attempts)
        match getStatus attempts with
        | Except.ok fresh => pollLoop getStatus sink fresh (attempts + 1) tr2 fuel
        | Except.error _ => pollLoop getStatus sink state (attempts + 1) tr2 fuel
    else (tr, Except.ok (state, attempts))

/-- Decision and acquisition of the `contentPart` (source lines 40-103): the
inline path for files below the 20 MiB threshold, otherwise upload, the
readiness-polling loop and the `FAILED` check.  The source's
`if (!uploadedFile || !uploadedFile.uri)` test uses JavaScript falsiness, so
it throws the unexpected-structure error when the unwrapped response is
nothing, when its `uri` field is absent, and also when that field is the
empty string. -/
def contentStep (env : Env) (sink : Option SinkB) : Trace × Except String ContentPart :=
  if env.fileSize < inlineLimitBytes then
    match emitLog sink trInit
        ("File is " ++ mbToFixed2 env.fileSize ++ "MB. Using fast inline processing.") with
    | Except.error e => (trInit, Except.error e)
    | Except.ok tr1 =>
      let tr2 := emitEv tr1 Ev.readInline
      match env.readInline with
      | Except.error e => (tr2, Except.error e)
      | Except.ok data => (tr2, Except.ok (ContentPart.inlineData env.fileType data))
  else
    match emitLog sink trInit
        ("File is " ++ mbToFixed2 env.fileSize ++ "MB (>20MB limit). Uploading to Gemini Storage...") with
    | Except.error e => (trInit, Except.error e)
    | Except.ok tr1 =>
      let tr2 := emitEv tr1 Ev.uploadCall
      match env.uploadResult with
      | Except.error e => (tr2, Except.error e)
      | Except.ok none =>
        (tr2, Except.error ("Upload to Gemini failed. Unexpected response structure: " ++ env.uploadRespStr))
      | Except.ok (some uf) =>
        match uf.uri with
        | none =>
          (tr2, Except.error ("Upload to Gemini failed. Unexpected response structure: " ++ env.uploadRespStr))
        | some uri =>
          if uri = "" then
            (tr2, Except.error ("Upload to Gemini failed. Unexpected response structure: " ++ env.uploadRespStr))
          else
          match emitLog sink tr2 ("Upload complete. URI: " ++ uri) with
          | Except.error e => (tr2, Except.error e)
          | Except.ok tr3 =>
            match pollLoop env.getStatus sink uf.state 0 tr3 30 with
            | (tr4, Except.error e) => (tr4, Except.error e)
            | (tr4, Except.ok (finalState, _)) =>
              if finalState = "FAILED" then
                (tr4, Except.error "File processing failed on Gemini servers.")
              else
                match emitLog sink tr4 "File ready for processing." with
                | Except.error e => (tr4, Except.error e)
                | Except.ok tr5 => (tr5, Except.ok (ContentPart.fileData uf.mimeType uri))

/-- The diagnostic message built when the generation response carries no
text (source lines 136-148): the base message, extended by the first
candidate's finish reason when that is truthy and differs from `'STOP'`,
then by the block reason when that is truthy. -/
def noTextMsg (resp : GenResponse) : String :=
  let m1 := "No transcript generated."
  let m2 :=
    match resp.candidates with
    | [] => m1
    | c :: _ =>
      match c.finishReason with
      | none => m1
      | some fr => if fr ≠ "" ∧ fr ≠ "STOP" then m1 ++ " Finish Reason: " ++ fr else m1
  match resp.promptFeedback with
  | none => m2
  | some pf =>
    match pf.blockReason with
    | none => m2
    | some br => if br ≠ "" then m2 ++ " Block Reason: " ++ br else m2

/-- The inference call and its result handling (source lines 105-150). -/
def generateStep (env : Env) (sink : Option SinkB)
    (st : Trace × Except String ContentPart) : Trace × Except String String :=
  match st with
  | (tr, Except.error e) => (tr, Except.error e)
  | (tr, Except.ok part) =>
    match emitLog sink tr "Sending request to Gemini 2.0 Flash..." with
    | Except.error e => (tr, Except.error e)
    | Except.ok tr6 =>
      let tr7 := emitEv tr6 Ev.generateCall
      match env.generate part with
      | Except.error e => (tr7, Except.error e)
      | Except.ok resp =>
        if jsTruthy resp.text then
          (tr7, Except.ok (resp.text.getD ""))
        else
          (tr7, Except.error (noTextMsg resp))

/-- Body of the `try` block of `transcribeMedia` (source lines 35-150),
returning the trace together with the transcript or the thrown message. -/
def transcribeBody (env : Env) (sink : Option SinkB) : Trace × Except String String :=
  generateStep env sink (contentStep env sink)

/-- Full `transcribeMedia` (source lines 34-160): the `try` body wrapped in
the `catch` block that replaces any error whose message contains `"404"` by
`MSG404` and rethrows every other error unchanged. -/
def transcribeMedia (env : Env) (sink : Option SinkB) : Trace × Except String String :=
  match transcribeBody env sink with
  | (tr, Except.ok t) => (tr, Except.ok t)
  | (tr, Except.error m) =>
    (tr, Except.error (if strIncludes m "404" then MSG404 else m))

/-- Error kind of the spec-modelled chunk planner. -/
inductive PlanError where
  | InvalidInput : PlanError
deriving DecidableEq, Repr

/-- One planned byte range `[startByte, endByte)` with its sequencing index. -/
structure ChunkRange where
  index : Nat
  startByte : Nat
  endByte : Nat
deriving DecidableEq, Repr

/-- Modelled from the spec: `ChunkPlanner.plan` (spec section 4.1).  No chunk
planner exists anywhere under `src/`; the repository only ships the
single-shot `transcribeMedia` path.  Following the spec's words: size `0`
fails with `InvalidInput`; a size not exceeding `maxUnitBytes` yields the
single range `[0, sizeBytes)` with index `0`; otherwise
`ceil(sizeBytes / maxUnitBytes)` ranges of length `maxUnitBytes` except the
final remainder range, indexed `0..n-1` in ascending byte order. -/
def plan (sizeBytes maxUnitBytes : Nat) : Except PlanError (List ChunkRange) :=
  if sizeBytes = 0 then Except.error PlanError.InvalidInput
  else if sizeBytes ≤ maxUnitBytes then Except.ok [⟨0, 0, sizeBytes⟩]
  else
    let n := (sizeBytes + maxUnitBytes - 1) / maxUnitBytes
    Except.ok ((List.range n).map fun i =>
      ⟨i, i * maxUnitBytes, min ((i + 1) * maxUnitBytes) sizeBytes⟩)

/-- Status oracle whose first refresh throws. -/
def c10gErr : Nat → Except String String :=
  fun k => if k = 0 then Except.error "transient" else Except.ok "ACTIVE"

/-- Status oracle whose first refresh reports the unchanged state. -/
def c10gOk : Nat → Except String String :=
  fun k => if k = 0 then Except.ok "PROCESSING" else Except.ok "ACTIVE"

/-- Zero-length media input whose remaining remote operations all succeed. -/
def c2env : Env :=
  { fileSize := 0, fileType := "audio/mp3", fileName := "empty.mp3",
    readInline := Except.ok "", uploadResult := Except.error "unused",
    uploadRespStr := "",
    getStatus := fun _ => Except.ok "ACTIVE",
    generate := fun _ =>
      Except.ok { text := some "hello", candidates := [], promptFeedback := none } }

/-- Environment whose remote status never leaves `"PROCESSING"`. -/
def c5env : Env :=
  { fileSize := 25 * 1024 * 1024, fileType := "video/mp4", fileName := "v.mp4",
    readInline := Except.error "unused",
    uploadResult := Except.ok (some
      { uri := some "uri-x", name := "files/x", mimeType := "video/mp4",
        state := "PROCESSING" }),
    uploadRespStr := "resp",
    getStatus := fun _ => Except.ok "PROCESSING",
    generate := fun _ =>
      Except.ok { text := some "full text", candidates := [], promptFeedback := none } }

/-- Environment whose first status refresh reports `"FAILED"`. -/
def c6env : Env :=
  { fileSize := 25 * 1024 * 1024, fileType := "video/mp4", fileName := "w.mp4",
    readInline := Except.error "unused",
    uploadResult := Except.ok (some
      { uri := some "uri-y", name := "files/y", mimeType := "video/mp4",
        state := "PROCESSING" }),
    uploadRespStr := "resp",
    getStatus := fun _ => Except.ok "FAILED",
    generate := fun _ =>
      Except.ok { text := some "t", candidates := [], promptFeedback := none } }

/-- Small-file environment whose generation response has no text but carries
the finish reason `"STOP"`. -/
def c7env : Env :=
  { fileSize := 1000, fileType := "audio/mp3", fileName := "a.mp3",
    readInline := Except.ok "QUJD", uploadResult := Except.error "unused",
    uploadRespStr := "",
    getStatus := fun _ => Except.ok "ACTIVE",
    generate := fun _ => Except.ok
      { text := none, candidates := [{ finishReason := some "STOP" }],
        promptFeedback := none } }

/-- Closed witness for the amended C7, at an environment whose response
carries a non-`STOP` finish reason and a block reason. -/
def c7env2 : Env :=
  { fileSize := 1000, fileType := "audio/mp3", fileName := "b.mp3",
    readInline := Except.ok "QUJD", uploadResult := Except.error "unused",
    uploadRespStr := "",
    getStatus := fun _ => Except.ok "ACTIVE",
    generate := fun _ => Except.ok
      { text := none, candidates := [{ finishReason := some "SAFETY" }],
        promptFeedback := some { blockReason := some "PROHIBITED_CONTENT" } } }

/-- Environment whose inference call throws a message containing `404`. -/
def c9env404 : Env :=
  { fileSize := 1000, fileType := "audio/mp3", fileName := "c.mp3",
    readInline := Except.ok "QUJD", uploadResult := Except.error "unused",
    uploadRespStr := "",
    getStatus := fun _ => Except.ok "ACTIVE",
    generate := fun _ => Except.error "Request failed with status 404" }

/-- Environment whose inference call throws an unrelated message. -/
def c9envOther : Env :=
  { fileSize := 1000, fileType := "audio/mp3", fileName := "d.mp3",
    readInline := Except.ok "QUJD", uploadResult := Except.error "unused",
    uploadRespStr := "",
    getStatus := fun _ => Except.ok "ACTIVE",
    generate := fun _ => Except.error "quota exceeded" }

/-- A sink that accepts every line. -/
def okSink : SinkB := { throwAt := fun _ => none }

/-- A sink that throws `"boom"` on its very first invocation. -/
def boomSink : SinkB := { throwAt := fun k => if k = 0 then some "boom" else none }

/-- A sink that accepts its first two invocations and throws on the third. -/
def lateSink : SinkB :=
  { throwAt := fun k => if k = 2 then some "late boom" else none }

/-- Large-file environment whose remote turns `ACTIVE` after one poll. -/
def c8env : Env :=
  { fileSize := 25 * 1024 * 1024, fileType := "video/mp4", fileName := "c.mp4",
    readInline := Except.error "unused",
    uploadResult := Except.ok (some
      { uri := some "uri-z", name := "files/z", mimeType := "video/mp4",
        state := "PROCESSING" }),
    uploadRespStr := "resp",
    getStatus := fun _ => Except.ok "ACTIVE",
    generate := fun _ =>
      Except.ok { text := some "hello", candidates := [], promptFeedback := none } }

/-- Unfolding equation of `pollLoop` at positive fuel. -/
theorem pollLoop_succ_eq (g : Nat → Except String String) (sink : Option SinkB)
    (s : String) (a : Nat) (tr : Trace) (fuel : Nat) :
    pollLoop g sink s a tr (fuel + 1) =
      if s = "PROCESSING" ∧ a < 30 then
        match emitLog sink tr ("Processing file on server... State: " ++ s) with
        | Except.error e => (tr, Except.error e)
        | Except.ok tr1 =>
          match g a with
          | Except.ok fresh =>
            pollLoop g sink fresh (a + 1) (emitEv (emitEv tr1 (Ev.sleep 2000)) (Ev.statusCall a)) fuel
          | Except.error _ =>
            pollLoop g sink s (a + 1) (emitEv (emitEv tr1 (Ev.sleep 2000)) (Ev.statusCall a)) fuel
      else (tr, Except.ok (s, a)) := rfl

/-- The loop body does nothing once its guard is false. -/
theorem pollLoop_stop (g : Nat → Except String String) (sink : Option SinkB)
    (s : String) (a : Nat) (tr : Trace) (fuel : Nat)
    (h : ¬(s = "PROCESSING" ∧ a < 30)) :
    pollLoop g sink s a tr fuel = (tr, Except.ok (s, a)) := by
  cases fuel with
  | zero => rfl
  | succ fuel => rw [pollLoop_succ_eq, if_neg h]

/-- One iteration whose sink call throws aborts the loop with that error. -/
theorem pollLoop_step_sinkThrow (g : Nat → Except String String) (sink : Option SinkB)
    (s : String) (a : Nat) (tr : Trace) (fuel : Nat) (e : String)
    (hc : s = "PROCESSING" ∧ a < 30)
    (hm : emitLog sink tr ("Processing file on server... State: " ++ s) = Except.error e) :
    pollLoop g sink s a tr (fuel + 1) = (tr, Except.error e) := by
  rw [pollLoop_succ_eq, if_pos hc, hm]

/-- One iteration whose status refresh succeeds continues with the fresh
state, counting the attempt. -/
theorem pollLoop_step_ok (g : Nat → Except String String) (sink : Option SinkB)
    (s : String) (a : Nat) (tr : Trace) (fuel : Nat) (tr1 : Trace) (fresh : String)
    (hc : s = "PROCESSING" ∧ a < 30)
    (hm : emitLog sink tr ("Processing file on server... State: " ++ s) = Except.ok tr1)
    (hg : g a = Except.ok fresh) :
    pollLoop g sink s a tr (fuel + 1) =
      pollLoop g sink fresh (a + 1) (emitEv (emitEv tr1 (Ev.sleep 2000)) (Ev.statusCall a)) fuel := by
  rw [pollLoop_succ_eq, if_pos hc, hm, hg]

/-- One iteration whose status refresh throws swallows the error (the
source's `catch` with only a `console.warn`) and continues with the last
observed state, still counting the attempt. -/
theorem pollLoop_step_err (g : Nat → Except String String) (sink : Option SinkB)
    (s : String) (a : Nat) (tr : Trace) (fuel : Nat) (tr1 : Trace) (e : String)
    (hc : s = "PROCESSING" ∧ a < 30)
    (hm : emitLog sink tr ("Processing file on server... State: " ++ s) = Except.ok tr1)
    (hg : g a = Except.error e) :
    pollLoop g sink s a tr (fuel + 1) =
      pollLoop g sink s (a + 1) (emitEv (emitEv tr1 (Ev.sleep 2000)) (Ev.statusCall a)) fuel := by
  rw [pollLoop_succ_eq, if_pos hc, hm, hg]

/-- With no sink attached, one run of the poll loop only appends sleep and
status-refresh events to the trace, never fails, increments `attempts` by
one per iteration (two events per attempt), and never exceeds
`max attempts 30` attempts. -/
theorem pollLoop_shape (g : Nat → Except String String) :
    ∀ (fuel : Nat) (s : String) (a : Nat) (tr : Trace),
      ∃ (extra : List Ev) (p : String × Nat),
        pollLoop g none s a tr fuel = ({ tr with events := tr.events ++ extra }, Except.ok p) ∧
        a ≤ p.2 ∧ p.2 ≤ max a 30 ∧ extra.length = 2 * (p.2 - a) ∧
        (∀ e ∈ extra, e = Ev.sleep 2000 ∨ ∃ k, a ≤ k ∧ k < 30 ∧ e = Ev.statusCall k) := by
  intro fuel
  induction fuel with
  | zero =>
    intro s a tr
    refine ⟨[], (s, a), ?_, le_refl a, Nat.le_max_left a 30, by simp, by simp⟩
    simp [pollLoop]
  | succ fuel ih =>
    intro s a tr
    by_cases hc : s = "PROCESSING" ∧ a < 30
    · have hmax : max a 30 = 30 := Nat.max_eq_right (Nat.le_of_lt hc.2)
      have hmax1 : max (a + 1) 30 = 30 := Nat.max_eq_right hc.2
      have hemit : emitLog none tr ("Processing file on server... State: " ++ s) =
          Except.ok tr := rfl
      have hstep :
          ∀ (s' : String),
            ∃ (extra : List Ev) (p : String × Nat),
              pollLoop g none s' (a + 1)
                  (emitEv (emitEv tr (Ev.sleep 2000)) (Ev.statusCall a)) fuel =
                ({ tr with events := tr.events ++ (Ev.sleep 2000 :: Ev.statusCall a :: extra) },
                  Except.ok p) ∧
              a ≤ p.2 ∧ p.2 ≤ max a 30 ∧
              (Ev.sleep 2000 :: Ev.statusCall a :: extra).length = 2 * (p.2 - a) ∧
              (∀ e ∈ Ev.sleep 2000 :: Ev.statusCall a :: extra,
                e = Ev.sleep 2000 ∨ ∃ k, a ≤ k ∧ k < 30 ∧ e = Ev.statusCall k) := by
      
        intro s'
        obtain ⟨extra, p, heq, h1, h2, h3, h4⟩ :=
          ih s' (a + 1) (emitEv (emitEv tr (Ev.sleep 2000)) (Ev.statusCall a))
        refine ⟨extra, p, ?_, by omega, by omega, ?_, ?_⟩
        · rw [heq]
          simp [emitEv, List.append_assoc]
        · simp only [List.length_cons] at h3 ⊢
          omega
        · intro e he
          simp only [List.mem_cons] at he
          rcases he with rfl | rfl | he
          · exact Or.inl rfl
          · exact Or.inr ⟨a, le_refl a, hc.2, rfl⟩
          · rcases h4 e he with h | ⟨k, hk1, hk2, hk3⟩
            · exact Or.inl h
            · exact Or.inr ⟨k, by omega, hk2, hk3⟩
      rcases hg : g a with e | fresh
      · obtain ⟨extra, p, heq, h1, h2, h3, h4⟩ := hstep s
        exact ⟨Ev.sleep 2000 :: Ev.statusCall a :: extra, p, by
          rw [pollLoop_step_err g none s a tr fuel tr e hc hemit hg]
          exact heq, h1, h2, h3, h4⟩
      · obtain ⟨extra, p, heq, h1, h2, h3, h4⟩ := hstep fresh
        exact ⟨Ev.sleep 2000 :: Ev.statusCall a :: extra, p, by
          rw [pollLoop_step_ok g none s a tr fuel tr fresh hc hemit hg]
          exact heq, h1, h2, h3, h4⟩
    · refine ⟨[], (s, a), ?_, le_refl a, Nat.le_max_left a 30, by simp, by simp⟩
      rw [pollLoop_stop g none s a tr (fuel + 1) hc]
      simp

/-- With enough fuel the loop can only stop while the state is still
`"PROCESSING"` by exhausting the attempt bound. -/
theorem pollLoop_exit (g : Nat → Except String String) :
    ∀ (fuel : Nat) (s : String) (a : Nat) (tr : Trace) (tr' : Trace) (p : String × Nat),
      30 - a ≤ fuel →
      pollLoop g none s a tr fuel = (tr', Except.ok p) →
      p.1 = "PROCESSING" → p.2 = max a 30 := by
  intro fuel
  induction fuel with
  | zero =>
    intro s a tr tr' p hfuel heq hproc
    rw [pollLoop_stop g none s a tr 0 (by intro h; omega)] at heq
    cases heq
    simp only
    omega
  | succ fuel ih =>
    intro s a tr tr' p hfuel heq hproc
    by_cases hc : s = "PROCESSING" ∧ a < 30
    · have hmax : max a 30 = 30 := Nat.max_eq_right (Nat.le_of_lt hc.2)
      have hmax1 : max (a + 1) 30 = 30 := Nat.max_eq_right hc.2
      have hemit : emitLog none tr ("Processing file on server... State: " ++ s) =
          Except.ok tr := rfl
      rcases hg : g a with e | fresh
      · rw [pollLoop_step_err g none s a tr fuel tr e hc hemit hg] at heq
        have := ih s (a + 1) _ tr' p (by omega) heq hproc
        omega
      · rw [pollLoop_step_ok g none s a tr fuel tr fresh hc hemit hg] at heq
        have := ih fresh (a + 1) _ tr' p (by omega) heq hproc
        omega
    · rw [pollLoop_stop g none s a tr (fuel + 1) hc] at heq
      cases heq
      simp only at hproc ⊢
      rcases Decidable.not_and_iff_or_not.mp hc with h | h
      · exact absurd hproc h
      · omega

/-- Any fuel of at least `30 - attempts` yields the same run of the loop:
the loop's own attempt bound always stops it first, so the fuel parameter is
semantically inert and the embedded `while` loop terminates after at most
`30` iterations whatever the remote responds. -/
theorem pollLoop_fuel_stable (g : Nat → Except String String) (sink : Option SinkB) :
    ∀ (fuel : Nat) (s : String) (a : Nat) (tr : Trace),
      30 - a ≤ fuel →
      pollLoop g sink s a tr fuel = pollLoop g sink s a tr (30 - a) := by
  intro fuel
  induction fuel with
  | zero =>
    intro s a tr hfuel
    have h0 : 30 - a = 0 := by omega
    rw [h0]
  | succ fuel ih =>
    intro s a tr hfuel
    by_cases hc : s = "PROCESSING" ∧ a < 30
    · have h30 : 30 - a = (30 - (a + 1)) + 1 := by omega
      rcases hm : emitLog sink tr ("Processing file on server... State: " ++ s) with e | tr1
      · rw [pollLoop_step_sinkThrow g sink s a tr fuel e hc hm, h30,
          pollLoop_step_sinkThrow g sink s a tr (30 - (a + 1)) e hc hm]
      · rcases hg : g a with e | fresh
        · rw [pollLoop_step_err g sink s a tr fuel tr1 e hc hm hg, h30,
            pollLoop_step_err g sink s a tr (30 - (a + 1)) tr1 e hc hm hg]
          exact ih s (a + 1) _ (by omega)
        · rw [pollLoop_step_ok g sink s a tr fuel tr1 fresh hc hm hg, h30,
            pollLoop_step_ok g sink s a tr (30 - (a + 1)) tr1 fresh hc hm hg]
          exact ih fresh (a + 1) _ (by omega)
    · rw [pollLoop_stop g sink s a tr (fuel + 1) hc, pollLoop_stop g sink s a tr (30 - a) hc]

/-- The loop with `attempts = a` only ever consults the status oracle at
indices `≥ a`, so two oracles agreeing from `a` on drive it identically. -/
theorem pollLoop_congr (g₁ g₂ : Nat → Except String String) (sink : Option SinkB) :
    ∀ (fuel : Nat) (s : String) (a : Nat) (tr : Trace),
      (∀ k, a ≤ k → g₁ k = g₂ k) →
      pollLoop g₁ sink s a tr fuel = pollLoop g₂ sink s a tr fuel := by
  intro fuel
  induction fuel with
  | zero => intro s a tr _; rfl
  | succ fuel ih =>
    intro s a tr hag
    by_cases hc : s = "PROCESSING" ∧ a < 30
    · have hag' : ∀ k, a + 1 ≤ k → g₁ k = g₂ k := fun k hk => hag k (by omega)
      rcases hm : emitLog sink tr ("Processing file on server... State: " ++ s) with e | tr1
      · rw [pollLoop_step_sinkThrow g₁ sink s a tr fuel e hc hm,
          pollLoop_step_sinkThrow g₂ sink s a tr fuel e hc hm]
      · rcases hg : g₁ a with e | fresh
        · rw [pollLoop_step_err g₁ sink s a tr fuel tr1 e hc hm hg,
            pollLoop_step_err g₂ sink s a tr fuel tr1 e hc hm ((hag a (le_refl a)).symm.trans hg)]
          exact ih s (a + 1) _ hag'
        · rw [pollLoop_step_ok g₁ sink s a tr fuel tr1 fresh hc hm hg,
            pollLoop_step_ok g₂ sink s a tr fuel tr1 fresh hc hm ((hag a (le_refl a)).symm.trans hg)]
          exact ih fresh (a + 1) _ hag'
    · rw [pollLoop_stop g₁ sink s a tr (fuel + 1) hc, pollLoop_stop g₂ sink s a tr (fuel + 1) hc]

/-- With no sink the final state and attempt count of the loop do not depend
on the trace it is started with. -/
theorem pollLoop_snd_indep (g : Nat → Except String String) :
    ∀ (fuel : Nat) (s : String) (a : Nat) (tr₁ tr₂ : Trace),
      (pollLoop g none s a tr₁ fuel).2 = (pollLoop g none s a tr₂ fuel).2 := by
  intro fuel
  induction fuel with
  | zero => intro s a tr₁ tr₂; rfl
  | succ fuel ih =>
    intro s a tr₁ tr₂
    by_cases hc : s = "PROCESSING" ∧ a < 30
    · have hemit : ∀ tr : Trace,
          emitLog none tr ("Processing file on server... State: " ++ s) = Except.ok tr :=
        fun _ => rfl
      rcases hg : g a with e | fresh
      · rw [pollLoop_step_err g none s a tr₁ fuel tr₁ e hc (hemit tr₁) hg,
          pollLoop_step_err g none s a tr₂ fuel tr₂ e hc (hemit tr₂) hg]
        exact ih s (a + 1) _ _
      · rw [pollLoop_step_ok g none s a tr₁ fuel tr₁ fresh hc (hemit tr₁) hg,
          pollLoop_step_ok g none s a tr₂ fuel tr₂ fresh hc (hemit tr₂) hg]
        exact ih fresh (a + 1) _ _
    · rw [pollLoop_stop g none s a tr₁ (fuel + 1) hc, pollLoop_stop g none s a tr₂ (fuel + 1) hc]

/-- If every status refresh keeps answering `"PROCESSING"`, the loop runs its
full `30` attempts and still ends in the `"PROCESSING"` state. -/
theorem pollLoop_allProcessing (g : Nat → Except String String)
    (hg : ∀ k, g k = Except.ok "PROCESSING") :
    ∀ (fuel : Nat) (a : Nat) (tr : Trace),
      30 - a ≤ fuel → a ≤ 30 →
      (pollLoop g none "PROCESSING" a tr fuel).2 = Except.ok ("PROCESSING", 30) := by
  intro fuel
  induction fuel with
  | zero =>
    intro a tr hfuel ha
    have h30 : a = 30 := by omega
    subst h30
    rfl
  | succ fuel ih =>
    intro a tr hfuel ha
    by_cases hlt : a < 30
    · have hc : ("PROCESSING" : String) = "PROCESSING" ∧ a < 30 := ⟨rfl, hlt⟩
      have hemit : emitLog none tr ("Processing file on server... State: " ++ "PROCESSING") =
          Except.ok tr := rfl
      rw [pollLoop_step_ok g none "PROCESSING" a tr fuel tr "PROCESSING" hc hemit (hg a)]
      exact ih (a + 1) _ (by omega) (by omega)
    · have h30 : a = 30 := by omega
      subst h30
      rw [pollLoop_stop g none "PROCESSING" 30 tr (fuel + 1) (by intro h; omega)]

/-- The `catch` wrapper never changes the trace of the run. -/
theorem transcribeMedia_fst (env : Env) (sink : Option SinkB) :
    (transcribeMedia env sink).1 = (transcribeBody env sink).1 := by
  unfold transcribeMedia
  rcases h : transcribeBody env sink with ⟨tr, r⟩
  rcases r with m | t <;> simp

/-- Telescoping sum of the planned chunk lengths: `n` ranges of the planner's
shape cover exactly the first `min (n * m) size` bytes. -/
theorem chunkSum (m : Nat) :
    ∀ (n size : Nat),
      ((List.range n).map (fun i => min ((i + 1) * m) size - i * m)).sum = min (n * m) size := by
  intro n
  induction n with
  | zero => intro size; simp
  | succ n ih =>
    intro size
    rw [List.range_succ, List.map_append, List.sum_append, ih size]
    simp only [List.map_cons, List.map_nil, List.sum_cons, List.sum_nil]
    have h1 : (n + 1) * m = n * m + m := Nat.succ_mul n m
    omega

/-- C1 (spec-modelled `ChunkPlanner.plan`): for positive size and unit
bounds the planner returns `ceil(sizeBytes / maxUnitBytes)` ranges, indexed
`0..n-1` in order, each non-empty of length at most `maxUnitBytes`,
contiguous (`ranges[i].endByte = ranges[i+1].startByte`), starting at `0`,
ending at `sizeBytes`, with lengths summing exactly to `sizeBytes`. -/
theorem c1_plan_correct (sizeBytes maxUnitBytes : Nat)
    (hs : 0 < sizeBytes) (hm : 0 < maxUnitBytes) :
    ∃ ranges : List ChunkRange,
      plan sizeBytes maxUnitBytes = Except.ok ranges ∧
      ranges.length = (sizeBytes + maxUnitBytes - 1) / maxUnitBytes ∧
      0 < ranges.length ∧
      (∀ i (h : i < ranges.length), (ranges.get ⟨i, h⟩).index = i) ∧
      (∀ i (h : i < ranges.length),
        (ranges.get ⟨i, h⟩).startByte < (ranges.get ⟨i, h⟩).endByte) ∧
      (∀ i (h : i + 1 < ranges.length),
        (ranges.get ⟨i, by omega⟩).endByte = (ranges.get ⟨i + 1, h⟩).startByte) ∧
      (∀ h0 : 0 < ranges.length, (ranges.get ⟨0, h0⟩).startByte = 0) ∧
      (∀ hl : ranges.length - 1 < ranges.length,
        (ranges.get ⟨ranges.length - 1, hl⟩).endByte = sizeBytes) ∧
      (∀ r ∈ ranges, r.endByte - r.startByte ≤ maxUnitBytes) ∧
      (ranges.map (fun r => r.endByte - r.startByte)).sum = sizeBytes := by
  by_cases hle : sizeBytes ≤ maxUnitBytes
  · refine ⟨[⟨0, 0, sizeBytes⟩], ?_, ?_, ?_, ?_, ?_, ?_, ?_, ?_, ?_, ?_⟩
    · unfold plan
      rw [if_neg (by omega), if_pos hle]
    · have : (sizeBytes + maxUnitBytes - 1) / maxUnitBytes = 1 := by
        apply Nat.div_eq_of_lt_le
        · omega
        · omega
      simp [this]
    · simp
    · intro i h
      simp only [List.length_singleton] at h
      interval_cases i
      rfl
    · intro i h
      simp only [List.length_singleton] at h
      interval_cases i
      simpa using hs
    · intro i h
      simp only [List.length_singleton] at h
      omega
    · intro h0
      rfl
    · intro hl
      rfl
    · intro r hr
      simp only [List.mem_singleton] at hr
      subst hr
      simpa using hle
    · simp
  · have hlt : maxUnitBytes < sizeBytes := by omega
    set k := (sizeBytes - 1) / maxUnitBytes with hk
    have hceil : (sizeBytes + maxUnitBytes - 1) / maxUnitBytes = k + 1 := by
      have h1 : sizeBytes + maxUnitBytes - 1 = (sizeBytes - 1) + maxUnitBytes := by omega
      rw [h1, Nat.add_div_right _ hm]
    have hkmul : k * maxUnitBytes ≤ sizeBytes - 1 := Nat.div_mul_le_self _ _
    have hkmul2 : sizeBytes - 1 < (k + 1) * maxUnitBytes := by
      have h1 := Nat.div_add_mod (sizeBytes - 1) maxUnitBytes
      have h2 := Nat.mod_lt (sizeBytes - 1) hm
      have h3 : (k + 1) * maxUnitBytes = k * maxUnitBytes + maxUnitBytes := Nat.succ_mul _ _
      have h4 : maxUnitBytes * ((sizeBytes - 1) / maxUnitBytes) = k * maxUnitBytes :=
        Nat.mul_comm _ _
      omega
    have hsle : sizeBytes ≤ (k + 1) * maxUnitBytes := by omega
    have hmul_le : ∀ i, i ≤ k → i * maxUnitBytes ≤ k * maxUnitBytes :=
      fun i hi => Nat.mul_le_mul_right _ hi
    have hplan : plan sizeBytes maxUnitBytes =
        Except.ok ((List.range (k + 1)).map fun i =>
          ⟨i, i * maxUnitBytes, min ((i + 1) * maxUnitBytes) sizeBytes⟩) := by
      unfold plan
      rw [if_neg (by omega), if_neg (by omega)]
      simp only [hceil]
    refine ⟨_, hplan, ?_, ?_, ?_, ?_, ?_, ?_, ?_, ?_, ?_⟩
    · simp [hceil]
    · simp
    · intro i h
      simp only [List.length_map, List.length_range] at h
      simp [List.get_eq_getElem]
    · intro i h
      simp only [List.length_map, List.length_range] at h
      simp only [List.get_eq_getElem, List.getElem_map, List.getElem_range]
      have hik : i ≤ k := by omega
      have h5 : i * maxUnitBytes ≤ k * maxUnitBytes := hmul_le i hik
      have h6 : (i + 1) * maxUnitBytes = i * maxUnitBytes + maxUnitBytes := Nat.succ_mul _ _
      omega
    · intro i h
      simp only [List.length_map, List.length_range] at h
      simp only [List.get_eq_getElem, List.getElem_map, List.getElem_range]
      have hik : i + 1 ≤ k := by omega
      have h5 : (i + 1) * maxUnitBytes ≤ k * maxUnitBytes := hmul_le _ hik
      omega
    · intro h0
      simp [List.get_eq_getElem]
    · intro hl
      have hlen : ((List.range (k + 1)).map fun i =>
          (⟨i, i * maxUnitBytes, min ((i + 1) * maxUnitBytes) sizeBytes⟩ : ChunkRange)).length
            = k + 1 := by simp
      simp only [List.get_eq_getElem, hlen]
      simp only [List.getElem_map, List.getElem_range]
      have h7 : k + 1 - 1 + 1 = k + 1 := by omega
      rw [h7]
      omega
    · intro r hr
      rcases List.mem_map.mp hr with ⟨i, hi, rfl⟩
      simp only
      have h6 : (i + 1) * maxUnitBytes = i * maxUnitBytes + maxUnitBytes := Nat.succ_mul _ _
      omega
    · rw [List.map_map]
      have hfun : ((fun r : ChunkRange => r.endByte - r.startByte) ∘ fun i =>
          (⟨i, i * maxUnitBytes, min ((i + 1) * maxUnitBytes) sizeBytes⟩ : ChunkRange)) =
          fun i => min ((i + 1) * maxUnitBytes) sizeBytes - i * maxUnitBytes := rfl
      rw [hfun, chunkSum]
      omega

/-- Witness for C1 at the spec's own worked example `plan(25MB, 15MB)`. -/
theorem c1_plan_correct_witness :
    ∃ ranges : List ChunkRange,
      plan 25000000 15000000 = Except.ok ranges ∧
      (ranges.map (fun r => r.endByte - r.startByte)).sum = 25000000 := by
  obtain ⟨r, h1, _, _, _, _, _, _, _, _, hsum⟩ :=
    c1_plan_correct 25000000 15000000 (by decide) (by decide)
  exact ⟨r, h1, hsum⟩

/-- C4: the readiness-polling loop always terminates, whatever the sequence
of remote status responses: any fuel of at least `30` runs the embedded
`while` loop to completion (the fuel is inert beyond the loop's own bound),
the loop performs at most `30` attempts, each attempt waits exactly the
fixed `2000` ms delay before its status query, and the loop keeps polling
exactly until the state leaves `"PROCESSING"` (it becomes `ACTIVE`, `FAILED`
or another terminal value) or the `30` attempts are exhausted. -/
theorem c4_poll_terminates (g : Nat → Except String String) (s : String)
    (tr : Trace) (fuel : Nat) (hfuel : 30 ≤ fuel) :
    pollLoop g none s 0 tr fuel = pollLoop g none s 0 tr 30 ∧
    ∃ (extra : List Ev) (p : String × Nat),
      pollLoop g none s 0 tr fuel = ({ tr with events := tr.events ++ extra }, Except.ok p) ∧
      p.2 ≤ 30 ∧ extra.length = 2 * p.2 ∧
      (∀ e ∈ extra, e = Ev.sleep 2000 ∨ ∃ k, k < 30 ∧ e = Ev.statusCall k) ∧
      (p.1 = "PROCESSING" → p.2 = 30) := by
  constructor
  · have h := pollLoop_fuel_stable g none fuel s 0 tr (by omega)
    simpa using h
  · obtain ⟨extra, p, heq, h1, h2, h3, h4⟩ := pollLoop_shape g fuel s 0 tr
    refine ⟨extra, p, heq, by simpa using h2, by simpa using h3, ?_, ?_⟩
    · intro e he
      rcases h4 e he with h | ⟨k, _, hk2, hk3⟩
      · exact Or.inl h
      · exact Or.inr ⟨k, hk2, hk3⟩
    · intro hproc
      have := pollLoop_exit g fuel s 0 tr _ p (by omega) heq hproc
      simpa using this

/-- Closed witness for C4: a loop that turns `ACTIVE` after one refresh,
run with surplus fuel. -/
theorem c4_poll_terminates_witness :
    pollLoop (fun _ => Except.ok "ACTIVE") none "PROCESSING" 0 trInit 31 =
      pollLoop (fun _ => Except.ok "ACTIVE") none "PROCESSING" 0 trInit 30 :=
  (c4_poll_terminates (fun _ => Except.ok "ACTIVE") "PROCESSING" trInit 31 (by omega)).1

/-- C10: an error thrown by one status refresh is swallowed by the loop's
`catch`: the iteration counts, the last observed state is kept, and the run
continues exactly as if the refresh had returned that state; moreover (with
no sink attached) the loop itself never surfaces an error, whatever the
status oracle does. -/
theorem c10_poll_error_ignored (g₁ g₂ : Nat → Except String String) (sink : Option SinkB)
    (s e : String) (a : Nat) (tr : Trace) (fuel : Nat)
    (h1 : g₁ a = Except.error e) (h2 : g₂ a = Except.ok s)
    (hag : ∀ k, k ≠ a → g₁ k = g₂ k) :
    pollLoop g₁ sink s a tr fuel = pollLoop g₂ sink s a tr fuel ∧
    ∀ (g : Nat → Except String String) (s₀ : String) (a₀ : Nat) (tr₀ : Trace) (f₀ : Nat),
      ∃ p, (pollLoop g none s₀ a₀ tr₀ f₀).2 = Except.ok p := by
  constructor
  · cases fuel with
    | zero => rfl
    | succ fuel =>
      by_cases hc : s = "PROCESSING" ∧ a < 30
      · rcases hm : emitLog sink tr ("Processing file on server... State: " ++ s) with er | tr1
        · rw [pollLoop_step_sinkThrow g₁ sink s a tr fuel er hc hm,
            pollLoop_step_sinkThrow g₂ sink s a tr fuel er hc hm]
        · rw [pollLoop_step_err g₁ sink s a tr fuel tr1 e hc hm h1,
            pollLoop_step_ok g₂ sink s a tr fuel tr1 s hc hm h2]
          exact pollLoop_congr g₁ g₂ sink fuel s (a + 1) _
            (fun k hk => hag k (by omega))
      · rw [pollLoop_stop g₁ sink s a tr (fuel + 1) hc,
          pollLoop_stop g₂ sink s a tr (fuel + 1) hc]
  · intro g s₀ a₀ tr₀ f₀
    obtain ⟨extra, p, heq, _⟩ := pollLoop_shape g f₀ s₀ a₀ tr₀
    exact ⟨p, by rw [heq]⟩

/-- Closed witness for C10: a first-refresh failure is indistinguishable
from a refresh that reported the last observed state. -/
theorem c10_poll_error_ignored_witness :
    pollLoop c10gErr none "PROCESSING" 0 trInit 30 =
      pollLoop c10gOk none "PROCESSING" 0 trInit 30 :=
  (c10_poll_error_ignored c10gErr c10gOk none "PROCESSING" "transient" 0 trInit 30
    rfl rfl (by intro k hk; simp [c10gErr, c10gOk, hk])).1

/-- With no sink, the inline path records exactly the file-read call and
yields the inline content part or the read error. -/
theorem contentStep_none_inline (env : Env) (h : env.fileSize < inlineLimitBytes) :
    contentStep env none =
      ({ logCount := 0, logs := [], events := [Ev.readInline] },
        match env.readInline with
        | Except.error e => Except.error e
        | Except.ok data => Except.ok (ContentPart.inlineData env.fileType data)) := by
  unfold contentStep
  rw [if_pos h]
  rcases hr : env.readInline with e | d <;> simp [emitLog, emitEv, trInit, hr]

/-- With no sink, an upload that throws surfaces its error after the upload
call was recorded. -/
theorem contentStep_none_upload_err (env : Env) (e : String)
    (h : ¬env.fileSize < inlineLimitBytes) (hu : env.uploadResult = Except.error e) :
    contentStep env none =
      ({ logCount := 0, logs := [], events := [Ev.uploadCall] }, Except.error e) := by
  unfold contentStep
  rw [if_neg h]
  simp [emitLog, emitEv, trInit, hu]

/-- With no sink, an upload response that unwraps to nothing fails with the
unexpected-structure message. -/
theorem contentStep_none_upload_noFile (env : Env)
    (h : ¬env.fileSize < inlineLimitBytes) (hu : env.uploadResult = Except.ok none) :
    contentStep env none =
      ({ logCount := 0, logs := [], events := [Ev.uploadCall] },
        Except.error ("Upload to Gemini failed. Unexpected response structure: " ++ env.uploadRespStr)) := by
  unfold contentStep
  rw [if_neg h]
  simp [emitLog, emitEv, trInit, hu]

/-- With no sink, an uploaded file without a `uri` fails with the
unexpected-structure message. -/
theorem contentStep_none_upload_noUri (env : Env) (uf : RemoteFile)
    (h : ¬env.fileSize < inlineLimitBytes) (hu : env.uploadResult = Except.ok (some uf))
    (huri : uf.uri = none) :
    contentStep env none =
      ({ logCount := 0, logs := [], events := [Ev.uploadCall] },
        Except.error ("Upload to Gemini failed. Unexpected response structure: " ++ env.uploadRespStr)) := by
  unfold contentStep
  rw [if_neg h]
  simp [emitLog, emitEv, trInit, hu, huri]

/-- With no sink, an uploaded file whose `uri` is the empty string (falsy in
JavaScript) fails with the unexpected-structure message, exactly like a
missing `uri`. -/
theorem contentStep_none_upload_emptyUri (env : Env) (uf : RemoteFile) (uri : String)
    (h : ¬env.fileSize < inlineLimitBytes) (hu : env.uploadResult = Except.ok (some uf))
    (huri : uf.uri = some uri) (hue : uri = "") :
    contentStep env none =
      ({ logCount := 0, logs := [], events := [Ev.uploadCall] },
        Except.error ("Upload to Gemini failed. Unexpected response structure: " ++ env.uploadRespStr)) := by
  unfold contentStep
  rw [if_neg h]
  simp [emitLog, emitEv, trInit, hu, huri, hue]

/-- With no sink, a successful upload with a truthy (non-empty) `uri` runs
the poll loop and then either fails on the `FAILED` state or yields the
remote-reference content part. -/
theorem contentStep_none_upload (env : Env) (uf : RemoteFile) (uri : String)
    (tr4 : Trace) (fs : String) (a : Nat)
    (h : ¬env.fileSize < inlineLimitBytes) (hu : env.uploadResult = Except.ok (some uf))
    (huri : uf.uri = some uri) (hne : uri ≠ "")
    (hpoll : pollLoop env.getStatus none uf.state 0
      { logCount := 0, logs := [], events := [Ev.uploadCall] } 30 = (tr4, Except.ok (fs, a))) :
    contentStep env none =
      (if fs = "FAILED" then (tr4, Except.error "File processing failed on Gemini servers.")
       else (tr4, Except.ok (ContentPart.fileData uf.mimeType uri))) := by
  unfold contentStep
  rw [if_neg h]
  simp only [emitLog, emitEv, trInit, hu, huri]
  rw [if_neg hne]
  simp only [List.nil_append]
  rw [hpoll]

/-- A failed content step passes its error through the generation step
untouched. -/
theorem generateStep_err (env : Env) (sink : Option SinkB) (tr : Trace) (e : String) :
    generateStep env sink (tr, Except.error e) = (tr, Except.error e) := rfl

/-- With no sink, a successful content step records the inference call and
resolves according to the generation response: its text when truthy, the
diagnostic message when not, the thrown error otherwise. -/
theorem generateStep_none_ok (env : Env) (tr : Trace) (part : ContentPart) :
    generateStep env none (tr, Except.ok part) =
      (emitEv tr Ev.generateCall,
        match env.generate part with
        | Except.error e => Except.error e
        | Except.ok resp =>
          if jsTruthy resp.text then Except.ok (resp.text.getD "")
          else Except.error (noTextMsg resp)) := by
  unfold generateStep
  rcases hg : env.generate part with e | resp
  · simp [emitLog, hg]
  · simp only [emitLog, hg]
    split <;> rfl

/-- A body that returns text passes through the `catch` wrapper unchanged. -/
theorem transcribeMedia_of_ok (env : Env) (sink : Option SinkB) (tr : Trace) (t : String)
    (h : transcribeBody env sink = (tr, Except.ok t)) :
    transcribeMedia env sink = (tr, Except.ok t) := by
  unfold transcribeMedia
  rw [h]

/-- A body that throws is rethrown through the `catch` wrapper, subject to
the `404` carve-out. -/
theorem transcribeMedia_of_err (env : Env) (sink : Option SinkB) (tr : Trace) (m : String)
    (h : transcribeBody env sink = (tr, Except.error m)) :
    transcribeMedia env sink = (tr, Except.error (if strIncludes m "404" then MSG404 else m)) := by
  unfold transcribeMedia
  rw [h]

/-- C3: a run takes the inline-data path (reading the file into the request)
exactly when the file size is below the 20 MiB threshold
(`inlineLimitBytes`), and calls the remote staging upload exactly when the
size is at or above it; this holds for every environment, whatever the
remote operations return. -/
theorem c3_inline_iff_below_limit (env : Env) :
    (Ev.readInline ∈ (transcribeMedia env none).1.events ↔
      env.fileSize < inlineLimitBytes) ∧
    (Ev.uploadCall ∈ (transcribeMedia env none).1.events ↔
      inlineLimitBytes ≤ env.fileSize) := by
  rw [transcribeMedia_fst env none]
  unfold transcribeBody
  by_cases h : env.fileSize < inlineLimitBytes
  · have h2 : ¬ inlineLimitBytes ≤ env.fileSize := by omega
    rw [contentStep_none_inline env h]
    rcases hr : env.readInline with e | d
    · simp only [hr]
      rw [generateStep_err]
      constructor <;> simp [h, h2]
    · simp only [hr]
      rw [generateStep_none_ok]
      constructor <;> simp [emitEv, h, h2]
  · have h2 : inlineLimitBytes ≤ env.fileSize := by omega
    rcases hu : env.uploadResult with e | o
    · rw [contentStep_none_upload_err env e h hu, generateStep_err]
      constructor <;> simp [h, h2]
    · rcases o with _ | uf
      · rw [contentStep_none_upload_noFile env h hu, generateStep_err]
        constructor <;> simp [h, h2]
      · rcases huri : uf.uri with _ | uri
        · rw [contentStep_none_upload_noUri env uf h hu huri, generateStep_err]
          constructor <;> simp [h, h2]
        · by_cases hue : uri = ""
          · rw [contentStep_none_upload_emptyUri env uf uri h hu huri hue, generateStep_err]
            constructor <;> simp [h, h2]
          · obtain ⟨extra, p, hpoll, _, _, _, h4⟩ :=
              pollLoop_shape env.getStatus 30 uf.state 0
                { logCount := 0, logs := [], events := [Ev.uploadCall] }
            dsimp only at hpoll
            rcases p with ⟨fs, a⟩
            have hnoRead : Ev.readInline ∉ extra := by
              intro hmem
              rcases h4 _ hmem with h5 | ⟨k, _, _, h5⟩ <;> simp at h5
            rw [contentStep_none_upload env uf uri _ fs a h hu huri hue hpoll]
            by_cases hf : fs = "FAILED"
            · rw [if_pos hf, generateStep_err]
              constructor <;> simp [h, h2, hnoRead]
            · rw [if_neg hf, generateStep_none_ok]
              constructor <;> simp [emitEv, h, h2, hnoRead]

/-- C2 counterexample: on a zero-length file the run does not fail at all —
it takes the inline path, performs the inference call on the empty payload
and returns its text.  No `InvalidInput` (nor any other) failure occurs and
inference is attempted, contradicting the claim. -/
theorem c2_counterexample :
    (transcribeMedia c2env none).2 = Except.ok "hello" ∧
    Ev.generateCall ∈ (transcribeMedia c2env none).1.events := by
  constructor
  · rfl
  · decide

/-- C2 amended: the spec-modelled `ChunkPlanner.plan` does reject size `0`
with `InvalidInput`, and a zero-length file indeed never reaches the upload
call (it falls below the inline threshold); but the in-repository
`transcribeMedia` performs no emptiness check: whenever the file read
succeeds the run proceeds to the inference call on the empty payload. -/
theorem c2_empty_media_amended (env : Env) (d : String) (m : Nat)
    (h0 : env.fileSize = 0) (hread : env.readInline = Except.ok d) :
    plan 0 m = Except.error PlanError.InvalidInput ∧
    Ev.uploadCall ∉ (transcribeMedia env none).1.events ∧
    Ev.generateCall ∈ (transcribeMedia env none).1.events := by
  have hsz : env.fileSize < inlineLimitBytes := by
    have h1 : inlineLimitBytes = 20971520 := rfl
    omega
  refine ⟨rfl, ?_, ?_⟩ <;>
    rw [transcribeMedia_fst] <;>
    unfold transcribeBody <;>
    rw [contentStep_none_inline env hsz] <;>
    simp only [hread] <;>
    rw [generateStep_none_ok] <;>
    simp [emitEv]

/-- Closed witness for the amended C2. -/
theorem c2_empty_media_amended_witness :
    plan 0 15000000 = Except.error PlanError.InvalidInput ∧
    Ev.uploadCall ∉ (transcribeMedia c2env none).1.events ∧
    Ev.generateCall ∈ (transcribeMedia c2env none).1.events :=
  c2_empty_media_amended c2env "" 15000000 rfl rfl

/-- C5: if the upload succeeds with a truthy (non-empty) `uri` and every
status refresh keeps reporting
`"PROCESSING"`, the poll loop exhausts its `30` attempts with the state
still `"PROCESSING"`, and the run then proceeds to the inference call
anyway — there is no timeout failure; with a truthy response text the run
even returns that text successfully. -/
theorem c5_proceeds_after_poll_exhaustion (env : Env) (uf : RemoteFile) (uri : String)
    (resp : GenResponse)
    (hsize : ¬ env.fileSize < inlineLimitBytes)
    (hup : env.uploadResult = Except.ok (some uf))
    (huri : uf.uri = some uri) (hne : uri ≠ "")
    (hstate : uf.state = "PROCESSING")
    (hg : ∀ k, env.getStatus k = Except.ok "PROCESSING")
    (hgen : ∀ p, env.generate p = Except.ok resp)
    (htext : jsTruthy resp.text = true) :
    (pollLoop env.getStatus none uf.state 0
      { logCount := 0, logs := [], events := [Ev.uploadCall] } 30).2 =
        Except.ok ("PROCESSING", 30) ∧
    Ev.generateCall ∈ (transcribeMedia env none).1.events ∧
    (transcribeMedia env none).2 = Except.ok (resp.text.getD "") := by
  have hsnd : (pollLoop env.getStatus none uf.state 0
      { logCount := 0, logs := [], events := [Ev.uploadCall] } 30).2 =
        Except.ok ("PROCESSING", 30) := by
    rw [hstate]
    exact pollLoop_allProcessing env.getStatus hg 30 0 _ (by omega) (by omega)
  refine ⟨hsnd, ?_⟩
  obtain ⟨extra, p, hpeq, _, _, _, _⟩ :=
    pollLoop_shape env.getStatus 30 uf.state 0
      { logCount := 0, logs := [], events := [Ev.uploadCall] }
  dsimp only at hpeq
  rw [hpeq] at hsnd
  simp only at hsnd
  have hp : p = ("PROCESSING", 30) := Except.ok.inj hsnd
  subst hp
  have hcs := contentStep_none_upload env uf uri _ "PROCESSING" 30 hsize hup huri hne hpeq
  rw [if_neg (by decide)] at hcs
  have hbody : transcribeBody env none =
      (emitEv ⟨0, [], [Ev.uploadCall] ++ extra⟩ Ev.generateCall,
        Except.ok (resp.text.getD "")) := by
    unfold transcribeBody
    rw [hcs, generateStep_none_ok]
    simp only [hgen, htext]
    rfl
  rw [transcribeMedia_of_ok env none _ _ hbody]
  constructor
  · simp [emitEv]
  · rfl

/-- Closed witness for C5: inference still runs and succeeds after thirty
`"PROCESSING"` polls. -/
theorem c5_proceeds_after_poll_exhaustion_witness :
    Ev.generateCall ∈ (transcribeMedia c5env none).1.events ∧
    (transcribeMedia c5env none).2 = Except.ok "full text" :=
  (c5_proceeds_after_poll_exhaustion c5env
    { uri := some "uri-x", name := "files/x", mimeType := "video/mp4",
      state := "PROCESSING" }
    "uri-x"
    { text := some "full text", candidates := [], promptFeedback := none }
    (by decide) rfl rfl (by decide) rfl (fun _ => rfl) (fun _ => rfl) rfl).2

/-- C6: if, after an upload that returned a truthy (non-empty) `uri`, the
poll loop ends with the remote state `"FAILED"`, the run terminates with
the remote-processing failure message and the inference call is never
performed. -/
theorem c6_failed_aborts (env : Env) (uf : RemoteFile) (uri : String) (a : Nat)
    (hsize : ¬ env.fileSize < inlineLimitBytes)
    (hup : env.uploadResult = Except.ok (some uf))
    (huri : uf.uri = some uri) (hne : uri ≠ "")
    (hpoll : (pollLoop env.getStatus none uf.state 0
      { logCount := 0, logs := [], events := [Ev.uploadCall] } 30).2 =
        Except.ok ("FAILED", a)) :
    (transcribeMedia env none).2 =
      Except.error "File processing failed on Gemini servers." ∧
    Ev.generateCall ∉ (transcribeMedia env none).1.events := by
  obtain ⟨extra, p, hpeq, _, _, _, h4⟩ :=
    pollLoop_shape env.getStatus 30 uf.state 0
      { logCount := 0, logs := [], events := [Ev.uploadCall] }
  dsimp only at hpeq
  rw [hpeq] at hpoll
  simp only at hpoll
  have hp : p = ("FAILED", a) := Except.ok.inj hpoll
  subst hp
  have hcs := contentStep_none_upload env uf uri _ "FAILED" a hsize hup huri hne hpeq
  rw [if_pos rfl] at hcs
  have hbody : transcribeBody env none =
      ({ logCount := 0, logs := [], events := [Ev.uploadCall] ++ extra },
        Except.error "File processing failed on Gemini servers.") := by
    unfold transcribeBody
    rw [hcs, generateStep_err]
  rw [transcribeMedia_of_err env none _ _ hbody]
  constructor
  · rw [if_neg (by decide)]
  · simp only
    intro hmem
    simp only [List.mem_append, List.mem_singleton] at hmem
    rcases hmem with h5 | h5
    · exact Ev.noConfusion h5
    · rcases h4 _ h5 with h6 | ⟨k, _, _, h6⟩ <;> exact Ev.noConfusion h6

/-- Closed witness for C6. -/
theorem c6_failed_aborts_witness :
    (transcribeMedia c6env none).2 =
      Except.error "File processing failed on Gemini servers." :=
  (c6_failed_aborts c6env
    { uri := some "uri-y", name := "files/y", mimeType := "video/mp4",
      state := "PROCESSING" }
    "uri-y" 1 (by decide) rfl rfl (by decide) rfl).1

/-- `strIncludesAux` decides list infixhood. -/
theorem strIncludesAux_iff (pat : List Char) :
    ∀ l : List Char, strIncludesAux pat l = true ↔ pat <:+: l := by
  intro l
  induction l with
  | nil => cases pat <;> simp [strIncludesAux]
  | cons c rest ih =>
    simp [strIncludesAux, List.infix_cons_iff, ih]

/-- `strIncludes` decides string substring containment. -/
theorem strIncludes_iff (s pat : String) :
    strIncludes s pat = true ↔ pat.toList <:+: s.toList :=
  strIncludesAux_iff pat.toList s.toList

/-- Concatenation of string character lists. -/
theorem strToList_append (s t : String) :
    (s ++ t).toList = s.toList ++ t.toList :=
  String.data_append s t

/-- A string contains its own final segment. -/
theorem strIncludes_append_right (a b : String) : strIncludes (a ++ b) b = true := by
  rw [strIncludes_iff, strToList_append]
  exact (List.suffix_append _ _).isInfix

/-- Containment is preserved by appending on the right. -/
theorem strIncludes_append_left_of (s t b : String)
    (h : strIncludes s b = true) : strIncludes (s ++ t) b = true := by
  rw [strIncludes_iff, strToList_append]
  rw [strIncludes_iff] at h
  exact h.trans (List.prefix_append _ _).isInfix

/-- The only way the generation step returns text is the truthiness branch
on `response.text`, so returned text is never the empty string. -/
theorem generateStep_ok_ne_empty (env : Env) (sink : Option SinkB)
    (st : Trace × Except String ContentPart) (tr : Trace) (t : String)
    (h : generateStep env sink st = (tr, Except.ok t)) : t ≠ "" := by
  unfold generateStep at h
  rcases st with ⟨tr0, r0⟩
  rcases r0 with e | part
  · simp at h
  · rcases hm : emitLog sink tr0 "Sending request to Gemini 2.0 Flash..." with e | tr6 <;>
      simp only [hm] at h
    · simp at h
    · rcases hg : env.generate part with e | resp <;> simp only [hg] at h
      · simp at h
      · by_cases ht : jsTruthy resp.text = true
        · rw [if_pos ht] at h
          have h2 : resp.text.getD "" = t := congrArg Prod.snd h |> Except.ok.inj
          rcases hx : resp.text with _ | s
          · rw [hx] at ht
            simp [jsTruthy] at ht
          · rw [hx] at ht h2
            simp only [Option.getD_some] at h2
            subst h2
            simpa [jsTruthy] using ht
        · rw [if_neg ht] at h
          simp at h

/-- C7 counterexample: the provider reported the finish reason `"STOP"`
(present in `c7env`), the response carried no text, and the run fails with
a message that does not include that finish reason — the source only adds
finish reasons different from `'STOP'`. -/
theorem c7_counterexample :
    (transcribeMedia c7env none).2 = Except.error "No transcript generated." ∧
    strIncludes "No transcript generated." "STOP" = false := by
  constructor
  · rfl
  · rfl

/-- C7 amended: a run never returns an empty transcript (the text branch
requires truthy text), and when the inference response has no text the run
fails with the diagnostic message, which includes the first candidate's
finish reason whenever that is present, non-empty and different from
`'STOP'`, and the block reason whenever that is present and non-empty; the
final error is that message subject to the `404` carve-out rewrite. -/
theorem c7_no_text_amended :
    (∀ (env : Env) (sink : Option SinkB) (tr : Trace) (t : String),
      transcribeMedia env sink = (tr, Except.ok t) → t ≠ "") ∧
    (∀ (env : Env) (resp : GenResponse) (d : String),
      env.fileSize < inlineLimitBytes →
      env.readInline = Except.ok d →
      (∀ p, env.generate p = Except.ok resp) →
      jsTruthy resp.text = false →
      (transcribeBody env none).2 = Except.error (noTextMsg resp) ∧
      (transcribeMedia env none).2 =
        Except.error
          (if strIncludes (noTextMsg resp) "404" then MSG404 else noTextMsg resp)) ∧
    (∀ (resp : GenResponse) (c : Candidate) (cs : List Candidate) (fr : String),
      resp.candidates = c :: cs → c.finishReason = some fr →
      fr ≠ "" → fr ≠ "STOP" → strIncludes (noTextMsg resp) fr = true) ∧
    (∀ (resp : GenResponse) (pf : PromptFeedback) (br : String),
      resp.promptFeedback = some pf → pf.blockReason = some br →
      br ≠ "" → strIncludes (noTextMsg resp) br = true) := by
  refine ⟨?_, ?_, ?_, ?_⟩
  · intro env sink tr t h
    rcases hb : transcribeBody env sink with ⟨tr', r⟩
    rcases r with m | t'
    · rw [transcribeMedia_of_err env sink _ _ hb] at h
      simp at h
    · rw [transcribeMedia_of_ok env sink _ _ hb] at h
      have h2 : t' = t := (congrArg Prod.snd h |> Except.ok.inj)
      subst h2
      exact generateStep_ok_ne_empty env sink (contentStep env sink) tr' t' hb
  · intro env resp d hsz hread hgen htext
    have hbody : transcribeBody env none =
        ({ logCount := 0, logs := [], events := [Ev.readInline, Ev.generateCall] },
          Except.error (noTextMsg resp)) := by
      unfold transcribeBody
      rw [contentStep_none_inline env hsz]
      simp only [hread]
      rw [generateStep_none_ok]
      simp only [hgen, htext]
      rfl
    constructor
    · rw [hbody]
    · rw [transcribeMedia_of_err env none _ _ hbody]
  · intro resp c cs fr hcand hfr hne hstop
    unfold noTextMsg
    simp only [hcand, hfr]
    rw [if_pos ⟨hne, hstop⟩]
    rcases hpf : resp.promptFeedback with _ | pf
    · dsimp only
      exact strIncludes_append_right _ fr
    · dsimp only
      rcases hbr : pf.blockReason with _ | br
      · dsimp only
        exact strIncludes_append_right _ fr
      · dsimp only
        by_cases hbe : br ≠ ""
        · rw [if_pos hbe]
          exact strIncludes_append_left_of _ _ fr
            (strIncludes_append_left_of _ _ fr (strIncludes_append_right _ fr))
        · rw [if_neg hbe]
          exact strIncludes_append_right _ fr
  · intro resp pf br hpf hbr hne
    unfold noTextMsg
    simp only [hpf, hbr]
    rw [if_pos hne]
    exact strIncludes_append_right _ br

/-- Closed witness for the amended C7. -/
theorem c7_no_text_amended_witness :
    ((transcribeMedia c7env2 none).2 =
      Except.error
        (if strIncludes (noTextMsg
            { text := none, candidates := [{ finishReason := some "SAFETY" }],
              promptFeedback := some { blockReason := some "PROHIBITED_CONTENT" } }) "404"
          then MSG404
          else noTextMsg
            { text := none, candidates := [{ finishReason := some "SAFETY" }],
              promptFeedback := some { blockReason := some "PROHIBITED_CONTENT" } })) ∧
    strIncludes (noTextMsg
      { text := none, candidates := [{ finishReason := some "SAFETY" }],
        promptFeedback := some { blockReason := some "PROHIBITED_CONTENT" } }) "SAFETY" = true ∧
    strIncludes (noTextMsg
      { text := none, candidates := [{ finishReason := some "SAFETY" }],
        promptFeedback := some { blockReason := some "PROHIBITED_CONTENT" } })
      "PROHIBITED_CONTENT" = true :=
  ⟨(c7_no_text_amended.2.1 c7env2
      { text := none, candidates := [{ finishReason := some "SAFETY" }],
        promptFeedback := some { blockReason := some "PROHIBITED_CONTENT" } }
      "QUJD" (by decide) rfl (fun _ => rfl) rfl).2,
    c7_no_text_amended.2.2.1
      { text := none, candidates := [{ finishReason := some "SAFETY" }],
        promptFeedback := some { blockReason := some "PROHIBITED_CONTENT" } }
      { finishReason := some "SAFETY" } [] "SAFETY" rfl rfl (by decide) (by decide),
    c7_no_text_amended.2.2.2
      { text := none, candidates := [{ finishReason := some "SAFETY" }],
        promptFeedback := some { blockReason := some "PROHIBITED_CONTENT" } }
      { blockReason := some "PROHIBITED_CONTENT" } "PROHIBITED_CONTENT" rfl rfl (by decide)⟩

/-- C9: any error thrown inside the pipeline whose message contains `"404"`
is rethrown as the distinguishing `MSG404` model/endpoint-misconfiguration
message, and every other error is propagated with its message unchanged —
shown for an inference-call error and for an upload-call error, each with
an arbitrary message. -/
theorem c9_404_carveout :
    (∀ (env : Env) (m d : String),
      env.fileSize < inlineLimitBytes →
      env.readInline = Except.ok d →
      (∀ p, env.generate p = Except.error m) →
      (transcribeMedia env none).2 =
        Except.error (if strIncludes m "404" then MSG404 else m)) ∧
    (∀ (env : Env) (m : String),
      ¬ env.fileSize < inlineLimitBytes →
      env.uploadResult = Except.error m →
      (transcribeMedia env none).2 =
        Except.error (if strIncludes m "404" then MSG404 else m)) := by
  constructor
  · intro env m d hsz hread hgen
    have hbody : transcribeBody env none =
        ({ logCount := 0, logs := [], events := [Ev.readInline, Ev.generateCall] },
          Except.error m) := by
      unfold transcribeBody
      rw [contentStep_none_inline env hsz]
      simp only [hread]
      rw [generateStep_none_ok]
      simp only [hgen]
      rfl
    rw [transcribeMedia_of_err env none _ _ hbody]
  · intro env m hsz hup
    have hbody : transcribeBody env none =
        ({ logCount := 0, logs := [], events := [Ev.uploadCall] },
          Except.error m) := by
      unfold transcribeBody
      rw [contentStep_none_upload_err env m hsz hup, generateStep_err]
    rw [transcribeMedia_of_err env none _ _ hbody]

/-- Closed witness for C9: a `404` message is replaced by `MSG404`, any
other message is propagated verbatim. -/
theorem c9_404_carveout_witness :
    (transcribeMedia c9env404 none).2 = Except.error MSG404 ∧
    (transcribeMedia c9envOther none).2 = Except.error "quota exceeded" := by
  constructor
  · have h := c9_404_carveout.1 c9env404 "Request failed with status 404" "QUJD"
      (by decide) rfl (fun _ => rfl)
    rw [h]
    rfl
  · have h := c9_404_carveout.1 c9envOther "quota exceeded" "QUJD"
      (by decide) rfl (fun _ => rfl)
    rw [h]
    rfl

/-- C8 counterexample: sink failures are not isolated from the pipeline — a
run that succeeds with a well-behaved sink is aborted outright when the
sink throws on its first invocation, the sink's exception becoming the
run's terminal error. -/
theorem c8_counterexample :
    (transcribeMedia c8env (some okSink)).2 = Except.ok "hello" ∧
    (transcribeMedia c8env (some boomSink)).2 = Except.error "boom" := by
  constructor
  · rfl
  · rfl

/-- A sink invocation that succeeds delivers exactly one line: the length of
the delivered log list always equals the invocation counter. -/
theorem emitLog_inv (sink : Option SinkB) (tr : Trace) (msg : String) (tr' : Trace)
    (hinv : tr.logs.length = tr.logCount)
    (h : emitLog sink tr msg = Except.ok tr') :
    tr'.logs.length = tr'.logCount := by
  rcases sink with _ | b
  · cases h
    exact hinv
  · rcases hb : b.throwAt tr.logCount with _ | e <;> simp only [emitLog, hb] at h
    · cases h
      simp [hinv]
    · exact Except.noConfusion h

/-- The poll loop preserves the delivered-equals-invoked log invariant, for
every sink. -/
theorem pollLoop_inv (g : Nat → Except String String) (sink : Option SinkB) :
    ∀ (fuel : Nat) (s : String) (a : Nat) (tr : Trace),
      tr.logs.length = tr.logCount →
      (pollLoop g sink s a tr fuel).1.logs.length = (pollLoop g sink s a tr fuel).1.logCount := by
  intro fuel
  induction fuel with
  | zero => intro s a tr hinv; exact hinv
  | succ fuel ih =>
    intro s a tr hinv
    by_cases hc : s = "PROCESSING" ∧ a < 30
    · rcases hm : emitLog sink tr ("Processing file on server... State: " ++ s) with er | tr1
      · rw [pollLoop_step_sinkThrow g sink s a tr fuel er hc hm]
        exact hinv
      · have hinv1 : tr1.logs.length = tr1.logCount := emitLog_inv sink tr _ tr1 hinv hm
        rcases hg : g a with er | fresh
        · rw [pollLoop_step_err g sink s a tr fuel tr1 er hc hm hg]
          exact ih s (a + 1) _ hinv1
        · rw [pollLoop_step_ok g sink s a tr fuel tr1 fresh hc hm hg]
          exact ih fresh (a + 1) _ hinv1
    · rw [pollLoop_stop g sink s a tr (fuel + 1) hc]
      exact hinv

/-- The poll loop only ever appends to the delivered log list. -/
theorem pollLoop_logs_mono (g : Nat → Except String String) (sink : Option SinkB) :
    ∀ (fuel : Nat) (s : String) (a : Nat) (tr : Trace),
      ∃ rest, (pollLoop g sink s a tr fuel).1.logs = tr.logs ++ rest := by
  intro fuel
  induction fuel with
  | zero => intro s a tr; exact ⟨[], by simp [pollLoop]⟩
  | succ fuel ih =>
    intro s a tr
    by_cases hc : s = "PROCESSING" ∧ a < 30
    · rcases hm : emitLog sink tr ("Processing file on server... State: " ++ s) with er | tr1
      · rw [pollLoop_step_sinkThrow g sink s a tr fuel er hc hm]
        exact ⟨[], by simp⟩
      · have hm1 : ∃ r1, tr1.logs = tr.logs ++ r1 := by
          rcases sink with _ | b
          · cases hm
            exact ⟨[], by simp⟩
          · rcases hb : b.throwAt tr.logCount with _ | er <;> simp only [emitLog, hb] at hm
            · cases hm
              exact ⟨[_], rfl⟩
            · exact Except.noConfusion hm
        rcases hm1 with ⟨r1, hr1⟩
        rcases hg : g a with er | fresh
        · rw [pollLoop_step_err g sink s a tr fuel tr1 er hc hm hg]
          rcases ih s (a + 1) (emitEv (emitEv tr1 (Ev.sleep 2000)) (Ev.statusCall a)) with ⟨r2, hr2⟩
          exact ⟨r1 ++ r2, by rw [hr2]; simp [emitEv, hr1]⟩
        · rw [pollLoop_step_ok g sink s a tr fuel tr1 fresh hc hm hg]
          rcases ih fresh (a + 1) (emitEv (emitEv tr1 (Ev.sleep 2000)) (Ev.statusCall a)) with ⟨r2, hr2⟩
          exact ⟨r1 ++ r2, by rw [hr2]; simp [emitEv, hr1]⟩
    · rw [pollLoop_stop g sink s a tr (fuel + 1) hc]
      exact ⟨[], by simp⟩

/-- The never-throwing sink accepts every line, bumping the counter. -/
theorem emitLog_okSink (tr : Trace) (msg : String) :
    emitLog (some okSink) tr msg = Except.ok (logBump tr msg) := rfl

/-- A sink that accepts its first `k` invocations and throws `e` on the
`(k+1)`-st behaves, at any trace, either exactly like the never-throwing
sink (when fewer than `k` lines were delivered so far) or throws `e` (when
exactly `k` were). -/
theorem emitLog_sim (b : SinkB) (k : Nat) (e : String)
    (hb1 : ∀ j, j < k → b.throwAt j = none) (hb2 : b.throwAt k = some e)
    (tr : Trace) (msg : String) (hk : tr.logCount ≤ k) :
    (tr.logCount = k ∧ emitLog (some b) tr msg = Except.error e) ∨
    (tr.logCount < k ∧ emitLog (some b) tr msg = Except.ok (logBump tr msg)) := by
  by_cases hek : tr.logCount = k
  · left
    refine ⟨hek, ?_⟩
    simp [emitLog, hek, hb2]
  · right
    have hlt : tr.logCount < k := by omega
    refine ⟨hlt, ?_⟩
    simp [emitLog, logBump, hb1 _ hlt]

/-- Generation step when the leading sink call throws. -/
theorem generateStep_emit_err (env : Env) (sink : Option SinkB) (tr : Trace)
    (part : ContentPart) (e : String)
    (hm : emitLog sink tr "Sending request to Gemini 2.0 Flash..." = Except.error e) :
    generateStep env sink (tr, Except.ok part) = (tr, Except.error e) := by
  unfold generateStep
  dsimp only
  rw [hm]

/-- Generation step when the leading sink call succeeds. -/
theorem generateStep_emit_ok (env : Env) (sink : Option SinkB) (tr : Trace)
    (part : ContentPart) (tr6 : Trace)
    (hm : emitLog sink tr "Sending request to Gemini 2.0 Flash..." = Except.ok tr6) :
    generateStep env sink (tr, Except.ok part) =
      (emitEv tr6 Ev.generateCall,
        match env.generate part with
        | Except.error e => Except.error e
        | Except.ok resp =>
          if jsTruthy resp.text then Except.ok (resp.text.getD "")
          else Except.error (noTextMsg resp)) := by
  unfold generateStep
  dsimp only
  rw [hm]
  rcases hg : env.generate part with e | resp
  · simp [hg]
  · simp only [hg]
    split <;> rfl

/-- Inline branch of the content step when the leading sink call throws. -/
theorem contentStep_inline_emitFail (env : Env) (sink : Option SinkB) (e : String)
    (hsz : env.fileSize < inlineLimitBytes)
    (hm : emitLog sink trInit
      ("File is " ++ mbToFixed2 env.fileSize ++ "MB. Using fast inline processing.") =
        Except.error e) :
    contentStep env sink = (trInit, Except.error e) := by
  unfold contentStep
  rw [if_pos hsz, hm]

/-- Inline branch of the content step when the leading sink call succeeds. -/
theorem contentStep_inline_emitOk (env : Env) (sink : Option SinkB) (tr1 : Trace)
    (hsz : env.fileSize < inlineLimitBytes)
    (hm : emitLog sink trInit
      ("File is " ++ mbToFixed2 env.fileSize ++ "MB. Using fast inline processing.") =
        Except.ok tr1) :
    contentStep env sink =
      (emitEv tr1 Ev.readInline,
        match env.readInline with
        | Except.error e => Except.error e
        | Except.ok data => Except.ok (ContentPart.inlineData env.fileType data)) := by
  unfold contentStep
  rw [if_pos hsz, hm]
  rcases hr : env.readInline with e | d <;> simp [hr]

/-- Upload branch of the content step when the leading sink call throws. -/
theorem contentStep_upload_emitFail (env : Env) (sink : Option SinkB) (e : String)
    (hsz : ¬env.fileSize < inlineLimitBytes)
    (hm : emitLog sink trInit
      ("File is " ++ mbToFixed2 env.fileSize ++ "MB (>20MB limit). Uploading to Gemini Storage...") =
        Except.error e) :
    contentStep env sink = (trInit, Except.error e) := by
  unfold contentStep
  rw [if_neg hsz, hm]

/-- Upload branch of the content step after a successful leading sink call:
the whole remainder, as one unfolding equation. -/
theorem contentStep_upload_emitOk (env : Env) (sink : Option SinkB) (tr1 : Trace)
    (hsz : ¬env.fileSize < inlineLimitBytes)
    (hm : emitLog sink trInit
      ("File is " ++ mbToFixed2 env.fileSize ++ "MB (>20MB limit). Uploading to Gemini Storage...") =
        Except.ok tr1) :
    contentStep env sink =
      (match env.uploadResult with
      | Except.error e => (emitEv tr1 Ev.uploadCall, Except.error e)
      | Except.ok none =>
        (emitEv tr1 Ev.uploadCall,
          Except.error ("Upload to Gemini failed. Unexpected response structure: " ++ env.uploadRespStr))
      | Except.ok (some uf) =>
        match uf.uri with
        | none =>
          (emitEv tr1 Ev.uploadCall,
            Except.error ("Upload to Gemini failed. Unexpected response structure: " ++ env.uploadRespStr))
        | some uri =>
          if uri = "" then
            (emitEv tr1 Ev.uploadCall,
              Except.error ("Upload to Gemini failed. Unexpected response structure: " ++ env.uploadRespStr))
          else
            match emitLog sink (emitEv tr1 Ev.uploadCall) ("Upload complete. URI: " ++ uri) with
            | Except.error e => (emitEv tr1 Ev.uploadCall, Except.error e)
            | Except.ok tr3 =>
              match pollLoop env.getStatus sink uf.state 0 tr3 30 with
              | (tr4, Except.error e) => (tr4, Except.error e)
              | (tr4, Except.ok (finalState, _)) =>
                if finalState = "FAILED" then
                  (tr4, Except.error "File processing failed on Gemini servers.")
                else
                  match emitLog sink tr4 "File ready for processing." with
                  | Except.error e => (tr4, Except.error e)
                  | Except.ok tr5 => (tr5, Except.ok (ContentPart.fileData uf.mimeType uri))) := by
  unfold contentStep
  rw [if_neg hsz, hm]

/-- Poll-loop simulation against the never-throwing sink: with a sink that
throws `e` on its `(k+1)`-st invocation the loop either never reaches that
invocation and behaves exactly like the never-throwing run, or aborts with
`e` after having delivered exactly `k` lines, the never-throwing run's line
list extending the delivered one. -/
theorem pollLoop_sim (g : Nat → Except String String) (b : SinkB) (k : Nat) (e : String)
    (hb1 : ∀ j, j < k → b.throwAt j = none) (hb2 : b.throwAt k = some e) :
    ∀ (fuel : Nat) (s : String) (a : Nat) (tr : Trace),
      tr.logCount ≤ k → tr.logs.length = tr.logCount →
      (pollLoop g (some b) s a tr fuel = pollLoop g (some okSink) s a tr fuel ∧
        (pollLoop g (some okSink) s a tr fuel).1.logCount ≤ k) ∨
      (∃ trb, pollLoop g (some b) s a tr fuel = (trb, Except.error e) ∧
        trb.logCount = k ∧ trb.logs.length = k ∧
        ∃ rest, (pollLoop g (some okSink) s a tr fuel).1.logs = trb.logs ++ rest) := by
  intro fuel
  induction fuel with
  | zero =>
    intro s a tr hk hinv
    left
    exact ⟨rfl, by simpa [pollLoop] using hk⟩
  | succ fuel ih =>
    intro s a tr hk hinv
    by_cases hc : s = "PROCESSING" ∧ a < 30
    · rcases emitLog_sim b k e hb1 hb2 tr
          ("Processing file on server... State: " ++ s) hk with ⟨hek, hmb⟩ | ⟨hlt, hmb⟩
      · right
        refine ⟨tr, pollLoop_step_sinkThrow g (some b) s a tr fuel e hc hmb, hek, by omega, ?_⟩
        rcases hg : g a with er | fresh
        · rw [pollLoop_step_err g (some okSink) s a tr fuel _ er hc (emitLog_okSink tr _) hg]
          rcases pollLoop_logs_mono g (some okSink) fuel s (a + 1)
            (emitEv (emitEv (logBump tr ("Processing file on server... State: " ++ s))
              (Ev.sleep 2000)) (Ev.statusCall a)) with ⟨r2, hr2⟩
          exact ⟨("Processing file on server... State: " ++ s) :: r2, by
            rw [hr2]; simp [emitEv, logBump]⟩
        · rw [pollLoop_step_ok g (some okSink) s a tr fuel _ fresh hc (emitLog_okSink tr _) hg]
          rcases pollLoop_logs_mono g (some okSink) fuel fresh (a + 1)
            (emitEv (emitEv (logBump tr ("Processing file on server... State: " ++ s))
              (Ev.sleep 2000)) (Ev.statusCall a)) with ⟨r2, hr2⟩
          exact ⟨("Processing file on server... State: " ++ s) :: r2, by
            rw [hr2]; simp [emitEv, logBump]⟩
      · have hk2 : (emitEv (emitEv (logBump tr ("Processing file on server... State: " ++ s))
            (Ev.sleep 2000)) (Ev.statusCall a)).logCount ≤ k := by
          simp [emitEv, logBump]
          omega
        have hinv2 : (emitEv (emitEv (logBump tr ("Processing file on server... State: " ++ s))
            (Ev.sleep 2000)) (Ev.statusCall a)).logs.length =
            (emitEv (emitEv (logBump tr ("Processing file on server... State: " ++ s))
              (Ev.sleep 2000)) (Ev.statusCall a)).logCount := by
          simp [emitEv, logBump, hinv]
        rcases hg : g a with er | fresh
        · rw [pollLoop_step_err g (some b) s a tr fuel _ er hc hmb hg,
            pollLoop_step_err g (some okSink) s a tr fuel _ er hc (emitLog_okSink tr _) hg]
          exact ih s (a + 1) _ hk2 hinv2
        · rw [pollLoop_step_ok g (some b) s a tr fuel _ fresh hc hmb hg,
            pollLoop_step_ok g (some okSink) s a tr fuel _ fresh hc (emitLog_okSink tr _) hg]
          exact ih fresh (a + 1) _ hk2 hinv2
    · left
      rw [pollLoop_stop g (some b) s a tr (fuel + 1) hc,
        pollLoop_stop g (some okSink) s a tr (fuel + 1) hc]
      exact ⟨rfl, by simpa using hk⟩

/-- A successful sink invocation only appends to the delivered lines. -/
theorem emitLog_logs_mono (sink : Option SinkB) (tr : Trace) (msg : String) (tr' : Trace)
    (h : emitLog sink tr msg = Except.ok tr') : ∃ r, tr'.logs = tr.logs ++ r := by
  rcases sink with _ | b
  · cases h
    exact ⟨[], by simp⟩
  · rcases hb : b.throwAt tr.logCount with _ | er <;> simp only [emitLog, hb] at h
    · cases h
      exact ⟨[msg], rfl⟩
    · exact Except.noConfusion h

/-- The generation step only appends to the delivered lines. -/
theorem generateStep_logs_mono (env : Env) (sink : Option SinkB)
    (st : Trace × Except String ContentPart) :
    ∃ r, (generateStep env sink st).1.logs = st.1.logs ++ r := by
  rcases st with ⟨tr, rc⟩
  rcases rc with er | part
  · exact ⟨[], by simp [generateStep]⟩
  · rcases hm : emitLog sink tr "Sending request to Gemini 2.0 Flash..." with er | tr6
    · rw [generateStep_emit_err env sink tr part er hm]
      exact ⟨[], by simp⟩
    · rcases emitLog_logs_mono sink tr _ tr6 hm with ⟨r1, hr1⟩
      rw [generateStep_emit_ok env sink tr part tr6 hm]
      exact ⟨r1, by simp [emitEv, hr1]⟩

/-- The generation step preserves the delivered-equals-invoked invariant. -/
theorem generateStep_inv (env : Env) (sink : Option SinkB)
    (st : Trace × Except String ContentPart)
    (hinv : st.1.logs.length = st.1.logCount) :
    (generateStep env sink st).1.logs.length = (generateStep env sink st).1.logCount := by
  rcases st with ⟨tr, rc⟩
  rcases rc with er | part
  · simpa [generateStep] using hinv
  · rcases hm : emitLog sink tr "Sending request to Gemini 2.0 Flash..." with er | tr6
    · rw [generateStep_emit_err env sink tr part er hm]
      exact hinv
    · have h6 := emitLog_inv sink tr _ tr6 hinv hm
      rw [generateStep_emit_ok env sink tr part tr6 hm]
      simpa [emitEv] using h6

/-- The content step preserves the delivered-equals-invoked invariant, for
every sink. -/
theorem contentStep_inv (env : Env) (sink : Option SinkB) :
    (contentStep env sink).1.logs.length = (contentStep env sink).1.logCount := by
  have hinit : (trInit : Trace).logs.length = trInit.logCount := rfl
  by_cases hsz : env.fileSize < inlineLimitBytes
  · rcases hm : emitLog sink trInit
        ("File is " ++ mbToFixed2 env.fileSize ++ "MB. Using fast inline processing.") with er | tr1
    · rw [contentStep_inline_emitFail env sink er hsz hm]
      exact hinit
    · have h1 := emitLog_inv sink trInit _ tr1 hinit hm
      rw [contentStep_inline_emitOk env sink tr1 hsz hm]
      simpa [emitEv] using h1
  · rcases hm : emitLog sink trInit
        ("File is " ++ mbToFixed2 env.fileSize ++ "MB (>20MB limit). Uploading to Gemini Storage...") with er | tr1
    · rw [contentStep_upload_emitFail env sink er hsz hm]
      exact hinit
    · have h1 := emitLog_inv sink trInit _ tr1 hinit hm
      have h2 : (emitEv tr1 Ev.uploadCall).logs.length = (emitEv tr1 Ev.uploadCall).logCount := by
        simpa [emitEv] using h1
      rw [contentStep_upload_emitOk env sink tr1 hsz hm]
      rcases hu : env.uploadResult with er | o
      · dsimp only
        exact h2
      · rcases o with _ | uf
        · dsimp only
          exact h2
        · dsimp only
          rcases huri : uf.uri with _ | uri
          · dsimp only
            exact h2
          · dsimp only
            by_cases hue : uri = ""
            · rw [if_pos hue]
              exact h2
            · rw [if_neg hue]
              rcases hm2 : emitLog sink (emitEv tr1 Ev.uploadCall)
                  ("Upload complete. URI: " ++ uri) with er | tr3
              · dsimp only
                exact h2
              · dsimp only
                have h3 := emitLog_inv sink _ _ tr3 h2 hm2
                rcases hpo : pollLoop env.getStatus sink uf.state 0 tr3 30 with ⟨tr4, r4⟩
                have h4 : tr4.logs.length = tr4.logCount := by
                  have h5 := pollLoop_inv env.getStatus sink 30 uf.state 0 tr3 h3
                  rw [hpo] at h5
                  exact h5
                rcases r4 with er | p
                · dsimp only
                  exact h4
                · rcases p with ⟨fs, a⟩
                  dsimp only
                  by_cases hf : fs = "FAILED"
                  · rw [if_pos hf]
                    exact h4
                  · rw [if_neg hf]
                    rcases hm3 : emitLog sink tr4 "File ready for processing." with er | tr5
                    · dsimp only
                      exact h4
                    · dsimp only
                      exact emitLog_inv sink tr4 _ tr5 h4 hm3

/-- Generation-step simulation against the never-throwing sink. -/
theorem generateStep_sim (b : SinkB) (k : Nat) (e : String)
    (hb1 : ∀ j, j < k → b.throwAt j = none) (hb2 : b.throwAt k = some e)
    (env : Env) (tr : Trace) (part : ContentPart)
    (hk : tr.logCount ≤ k) (hinv : tr.logs.length = tr.logCount) :
    (generateStep env (some b) (tr, Except.ok part) =
        generateStep env (some okSink) (tr, Except.ok part) ∧
      (generateStep env (some okSink) (tr, Except.ok part)).1.logCount ≤ k) ∨
    (∃ trb, generateStep env (some b) (tr, Except.ok part) = (trb, Except.error e) ∧
      trb.logCount = k ∧ trb.logs.length = k ∧
      ∃ rest, (generateStep env (some okSink) (tr, Except.ok part)).1.logs =
        trb.logs ++ rest) := by
  rcases emitLog_sim b k e hb1 hb2 tr "Sending request to Gemini 2.0 Flash..." hk
    with ⟨hek, hmb⟩ | ⟨hlt, hmb⟩
  · right
    refine ⟨tr, generateStep_emit_err env (some b) tr part e hmb, hek, by omega, ?_⟩
    rw [generateStep_emit_ok env (some okSink) tr part _ (emitLog_okSink tr _)]
    exact ⟨["Sending request to Gemini 2.0 Flash..."], by simp [emitEv, logBump]⟩
  · left
    rw [generateStep_emit_ok env (some b) tr part _ hmb,
      generateStep_emit_ok env (some okSink) tr part _ (emitLog_okSink tr _)]
    refine ⟨rfl, ?_⟩
    simp only [emitEv, logBump]
    omega

/-- Content-step simulation against the never-throwing sink: either no sink
invocation past the first `k` is reached and the step behaves exactly like
the never-throwing run (whose trace then satisfies the log invariants), or
the step aborts with the sink's exception after exactly `k` delivered
lines, the never-throwing run's line list extending the delivered one. -/
theorem contentStep_sim (b : SinkB) (k : Nat) (e : String)
    (hb1 : ∀ j, j < k → b.throwAt j = none) (hb2 : b.throwAt k = some e) (env : Env) :
    (contentStep env (some b) = contentStep env (some okSink) ∧
      (contentStep env (some okSink)).1.logCount ≤ k ∧
      (contentStep env (some okSink)).1.logs.length =
        (contentStep env (some okSink)).1.logCount) ∨
    (∃ trb, contentStep env (some b) = (trb, Except.error e) ∧
      trb.logCount = k ∧ trb.logs.length = k ∧
      ∃ rest, (contentStep env (some okSink)).1.logs = trb.logs ++ rest) := by
  by_cases hsz : env.fileSize < inlineLimitBytes
  · rcases emitLog_sim b k e hb1 hb2 trInit
        ("File is " ++ mbToFixed2 env.fileSize ++ "MB. Using fast inline processing.")
        (Nat.zero_le k) with ⟨hek, hmb⟩ | ⟨hlt, hmb⟩
    · have hek0 : 0 = k := hek
      right
      refine ⟨trInit, contentStep_inline_emitFail env (some b) e hsz hmb, hek, ?_, ?_⟩
      · simp [trInit]
        omega
      · exact ⟨(contentStep env (some okSink)).1.logs, by simp [trInit]⟩
    · have hlt0 : 0 < k := hlt
      left
      rw [contentStep_inline_emitOk env (some b) _ hsz hmb,
        contentStep_inline_emitOk env (some okSink) _ hsz (emitLog_okSink trInit _)]
      refine ⟨rfl, ?_, ?_⟩
      · simp only [emitEv, logBump, trInit]
        omega
      · simp [emitEv, logBump, trInit]
  · rcases emitLog_sim b k e hb1 hb2 trInit
        ("File is " ++ mbToFixed2 env.fileSize ++ "MB (>20MB limit). Uploading to Gemini Storage...")
        (Nat.zero_le k) with ⟨hek, hmb⟩ | ⟨hlt, hmb⟩
    · have hek0 : 0 = k := hek
      right
      refine ⟨trInit, contentStep_upload_emitFail env (some b) e hsz hmb, hek, ?_, ?_⟩
      · simp [trInit]
        omega
      · exact ⟨(contentStep env (some okSink)).1.logs, by simp [trInit]⟩
    · have hlt0 : 0 < k := hlt
      have htr2c : (emitEv (logBump trInit
          ("File is " ++ mbToFixed2 env.fileSize ++ "MB (>20MB limit). Uploading to Gemini Storage..."))
          Ev.uploadCall).logCount ≤ k := by
        simp only [emitEv, logBump, trInit]
        omega
      have htr2n : (emitEv (logBump trInit
          ("File is " ++ mbToFixed2 env.fileSize ++ "MB (>20MB limit). Uploading to Gemini Storage..."))
          Ev.uploadCall).logCount = 1 := by
        simp [emitEv, logBump, trInit]
      have htr2l : (emitEv (logBump trInit
          ("File is " ++ mbToFixed2 env.fileSize ++ "MB (>20MB limit). Uploading to Gemini Storage..."))
          Ev.uploadCall).logs.length = 1 := by
        simp [emitEv, logBump, trInit]
      have htr2i : (emitEv (logBump trInit
          ("File is " ++ mbToFixed2 env.fileSize ++ "MB (>20MB limit). Uploading to Gemini Storage..."))
          Ev.uploadCall).logs.length = (emitEv (logBump trInit
          ("File is " ++ mbToFixed2 env.fileSize ++ "MB (>20MB limit). Uploading to Gemini Storage..."))
          Ev.uploadCall).logCount := by
        rw [htr2n, htr2l]
      rw [contentStep_upload_emitOk env (some b) _ hsz hmb,
        contentStep_upload_emitOk env (some okSink) _ hsz (emitLog_okSink trInit _)]
      rcases hu : env.uploadResult with er | o
      · dsimp only
        exact Or.inl ⟨rfl, htr2c, htr2i⟩
      · rcases o with _ | uf
        · dsimp only
          exact Or.inl ⟨rfl, htr2c, htr2i⟩
        · dsimp only
          rcases huri : uf.uri with _ | uri
          · dsimp only
            exact Or.inl ⟨rfl, htr2c, htr2i⟩
          · dsimp only
            by_cases hue : uri = ""
            · simp only [if_pos hue]
              exact Or.inl ⟨by trivial, htr2c, htr2i⟩
            · simp only [if_neg hue]
              rcases emitLog_sim b k e hb1 hb2
                  (emitEv (logBump trInit
                    ("File is " ++ mbToFixed2 env.fileSize ++ "MB (>20MB limit). Uploading to Gemini Storage..."))
                    Ev.uploadCall)
                  ("Upload complete. URI: " ++ uri) htr2c with ⟨hek2, hmb2⟩ | ⟨hlt2, hmb2⟩
              · right
                refine ⟨_, ?_, hek2, ?_, ?_⟩
                · simp only [hmb2]
                · omega
                · simp only [emitLog_okSink]
                  obtain ⟨r1, hr1⟩ := pollLoop_logs_mono env.getStatus (some okSink) 30 uf.state 0
                    (logBump (emitEv (logBump trInit
                      ("File is " ++ mbToFixed2 env.fileSize ++ "MB (>20MB limit). Uploading to Gemini Storage..."))
                      Ev.uploadCall) ("Upload complete. URI: " ++ uri))
                  rcases hpo : pollLoop env.getStatus (some okSink) uf.state 0
                      (logBump (emitEv (logBump trInit
                        ("File is " ++ mbToFixed2 env.fileSize ++ "MB (>20MB limit). Uploading to Gemini Storage..."))
                        Ev.uploadCall) ("Upload complete. URI: " ++ uri)) 30 with ⟨tr4, r4⟩
                  rw [hpo] at hr1
                  dsimp only at hr1
                  rcases r4 with er | p
                  · dsimp only
                    exact ⟨("Upload complete. URI: " ++ uri) :: r1, by
                      rw [hr1]; simp [logBump]⟩
                  · rcases p with ⟨fs, a⟩
                    dsimp only
                    by_cases hf : fs = "FAILED"
                    · simp only [if_pos hf]
                      exact ⟨("Upload complete. URI: " ++ uri) :: r1, by
                        rw [hr1]; simp [logBump]⟩
                    · simp only [if_neg hf]
                      refine ⟨("Upload complete. URI: " ++ uri) :: (r1 ++ ["File ready for processing."]), ?_⟩
                      dsimp only [logBump]
                      rw [hr1]
                      simp [logBump]
              · have hk3 : (logBump (emitEv (logBump trInit
                    ("File is " ++ mbToFixed2 env.fileSize ++ "MB (>20MB limit). Uploading to Gemini Storage..."))
                    Ev.uploadCall) ("Upload complete. URI: " ++ uri)).logCount ≤ k := by
                  simp only [logBump, emitEv, trInit]
                  simp only [logBump, emitEv, trInit] at hlt2
                  omega
                have hinv3 : (logBump (emitEv (logBump trInit
                    ("File is " ++ mbToFixed2 env.fileSize ++ "MB (>20MB limit). Uploading to Gemini Storage..."))
                    Ev.uploadCall) ("Upload complete. URI: " ++ uri)).logs.length =
                    (logBump (emitEv (logBump trInit
                      ("File is " ++ mbToFixed2 env.fileSize ++ "MB (>20MB limit). Uploading to Gemini Storage..."))
                      Ev.uploadCall) ("Upload complete. URI: " ++ uri)).logCount := by
                  simp [logBump, emitEv, trInit]
                rw [hmb2, emitLog_okSink]
                dsimp only
                rcases pollLoop_sim env.getStatus b k e hb1 hb2 30 uf.state 0
                    (logBump (emitEv (logBump trInit
                      ("File is " ++ mbToFixed2 env.fileSize ++ "MB (>20MB limit). Uploading to Gemini Storage..."))
                      Ev.uploadCall) ("Upload complete. URI: " ++ uri)) hk3 hinv3
                  with ⟨hpeq, hpk⟩ | ⟨trb, hpb, hbk, hbl, rest, hplogs⟩
                · have hpinv := pollLoop_inv env.getStatus (some okSink) 30 uf.state 0
                    (logBump (emitEv (logBump trInit
                      ("File is " ++ mbToFixed2 env.fileSize ++ "MB (>20MB limit). Uploading to Gemini Storage..."))
                      Ev.uploadCall) ("Upload complete. URI: " ++ uri)) hinv3
                  rw [hpeq]
                  rcases hpo : pollLoop env.getStatus (some okSink) uf.state 0
                      (logBump (emitEv (logBump trInit
                        ("File is " ++ mbToFixed2 env.fileSize ++ "MB (>20MB limit). Uploading to Gemini Storage..."))
                        Ev.uploadCall) ("Upload complete. URI: " ++ uri)) 30 with ⟨tr4, r4⟩
                  rw [hpo] at hpk hpinv
                  dsimp only at hpk hpinv
                  rcases r4 with er | p
                  · dsimp only
                    exact Or.inl ⟨rfl, hpk, hpinv⟩
                  · rcases p with ⟨fs, a⟩
                    dsimp only
                    by_cases hf : fs = "FAILED"
                    · simp only [if_pos hf]
                      exact Or.inl ⟨by trivial, hpk, hpinv⟩
                    · simp only [if_neg hf]
                      rcases emitLog_sim b k e hb1 hb2 tr4 "File ready for processing." hpk
                        with ⟨hek4, hmb4⟩ | ⟨hlt4, hmb4⟩
                      · right
                        refine ⟨tr4, ?_, hek4, by omega, ?_⟩
                        · simp only [hmb4]
                        · refine ⟨["File ready for processing."], ?_⟩
                          rw [emitLog_okSink]
                          dsimp only [logBump]
                      · left
                        rw [hmb4, emitLog_okSink]
                        refine ⟨rfl, ?_, ?_⟩
                        · dsimp only [logBump]
                          omega
                        · dsimp only [logBump]
                          simp [hpinv]
                · right
                  rw [hpb]
                  refine ⟨trb, rfl, hbk, hbl, ?_⟩
                  rcases hpo : pollLoop env.getStatus (some okSink) uf.state 0
                      (logBump (emitEv (logBump trInit
                        ("File is " ++ mbToFixed2 env.fileSize ++ "MB (>20MB limit). Uploading to Gemini Storage..."))
                        Ev.uploadCall) ("Upload complete. URI: " ++ uri)) 30 with ⟨trO, rO⟩
                  rw [hpo] at hplogs
                  dsimp only at hplogs
                  rcases rO with er | p
                  · dsimp only
                    exact ⟨rest, hplogs⟩
                  · rcases p with ⟨fs, a⟩
                    dsimp only
                    by_cases hf : fs = "FAILED"
                    · simp only [if_pos hf]
                      exact ⟨rest, hplogs⟩
                    · simp only [if_neg hf]
                      rw [emitLog_okSink]
                      refine ⟨rest ++ ["File ready for processing."], ?_⟩
                      dsimp only [logBump]
                      rw [hplogs]
                      simp

/-- C8 amended, universally: (1) for every environment and every sink, the
delivered log lines equal the number of successful sink invocations — no
accepted line is ever dropped; (2) for every environment and every sink
that accepts its first `k` invocations and throws `e` on the `(k+1)`-st,
the run either never reaches that invocation and coincides exactly with the
run under the never-throwing sink, or is aborted by the sink's exception:
its terminal error is `e` (subject to the `404` carve-out) and the lines it
delivered are precisely the first `k` lines of the never-throwing run, in
order; (3) in particular a sink that throws on its very first invocation
always aborts the run with its exception; (4) on a concrete full
upload-poll-infer run the never-throwing sink receives all five milestone
lines in milestone order and the run succeeds. -/
theorem c8_sink_amended :
    (∀ (env : Env) (sink : Option SinkB),
      (transcribeMedia env sink).1.logs.length = (transcribeMedia env sink).1.logCount) ∧
    (∀ (env : Env) (b : SinkB) (k : Nat) (e : String),
      (∀ j, j < k → b.throwAt j = none) → b.throwAt k = some e →
      transcribeMedia env (some b) = transcribeMedia env (some okSink) ∨
      ((transcribeMedia env (some b)).2 =
          Except.error (if strIncludes e "404" then MSG404 else e) ∧
        (transcribeMedia env (some b)).1.logCount = k ∧
        (transcribeMedia env (some b)).1.logs =
          ((transcribeMedia env (some okSink)).1.logs).take k)) ∧
    (∀ (env : Env) (b : SinkB) (e : String),
      b.throwAt 0 = some e →
      (transcribeMedia env (some b)).2 =
        Except.error (if strIncludes e "404" then MSG404 else e)) ∧
    ((transcribeMedia c8env (some okSink)).1.logs =
      ["File is 25.00MB (>20MB limit). Uploading to Gemini Storage...",
       "Upload complete. URI: uri-z",
       "Processing file on server... State: PROCESSING",
       "File ready for processing.",
       "Sending request to Gemini 2.0 Flash..."]) ∧
    ((transcribeMedia c8env (some okSink)).2 = Except.ok "hello") := by
  refine ⟨?_, ?_, ?_, rfl, rfl⟩
  · intro env sink
    rw [transcribeMedia_fst]
    exact generateStep_inv env sink (contentStep env sink) (contentStep_inv env sink)
  · intro env b k e hb1 hb2
    rcases contentStep_sim b k e hb1 hb2 env with ⟨hceq, hck, hcinv⟩ |
      ⟨trb, hcb, hbk, hbl, rest, hclogs⟩
    · rcases hco : contentStep env (some okSink) with ⟨trc, rc⟩
      rw [hco] at hceq hck hcinv
      dsimp only at hck hcinv
      rcases rc with er | part
      · left
        have hbb : transcribeBody env (some b) = transcribeBody env (some okSink) := by
          unfold transcribeBody
          rw [hceq, hco, generateStep_err, generateStep_err]
        unfold transcribeMedia
        rw [hbb]
      · rcases generateStep_sim b k e hb1 hb2 env trc part hck hcinv with ⟨hgeq, hgk⟩ |
          ⟨trg, hgb, hgk, hgl, rest, hglogs⟩
        · left
          have hbb : transcribeBody env (some b) = transcribeBody env (some okSink) := by
            unfold transcribeBody
            rw [hceq, hco, hgeq]
          unfold transcribeMedia
          rw [hbb]
        · right
          have hbody : transcribeBody env (some b) = (trg, Except.error e) := by
            unfold transcribeBody
            rw [hceq, hgb]
          have hmb := transcribeMedia_of_err env (some b) trg e hbody
          have hoklogs : (transcribeMedia env (some okSink)).1.logs = trg.logs ++ rest := by
            rw [transcribeMedia_fst]
            unfold transcribeBody
            rw [hco]
            exact hglogs
          refine ⟨by rw [hmb], by rw [hmb]; exact hgk, ?_⟩
          rw [hmb]
          dsimp only
          rw [hoklogs, List.take_left' hgl]
    · right
      have hbody : transcribeBody env (some b) = (trb, Except.error e) := by
        unfold transcribeBody
        rw [hcb, generateStep_err]
      have hmb := transcribeMedia_of_err env (some b) trb e hbody
      obtain ⟨r2, hr2⟩ := generateStep_logs_mono env (some okSink) (contentStep env (some okSink))
      have hoklogs : (transcribeMedia env (some okSink)).1.logs = trb.logs ++ (rest ++ r2) := by
        rw [transcribeMedia_fst]
        unfold transcribeBody
        rw [hr2, hclogs, List.append_assoc]
      refine ⟨by rw [hmb], by rw [hmb]; exact hbk, ?_⟩
      rw [hmb]
      dsimp only
      rw [hoklogs, List.take_left' hbl]
  · intro env b e hb
    have hemit : ∀ msg, emitLog (some b) trInit msg = Except.error e := by
      intro msg
      simp [emitLog, trInit, hb]
    have hcs : contentStep env (some b) = (trInit, Except.error e) := by
      unfold contentStep
      by_cases hsz : env.fileSize < inlineLimitBytes
      · rw [if_pos hsz, hemit]
      · rw [if_neg hsz, hemit]
    have hbody : transcribeBody env (some b) = (trInit, Except.error e) := by
      unfold transcribeBody
      rw [hcs, generateStep_err]
    rw [transcribeMedia_of_err env (some b) _ _ hbody]

/-- Closed witness for the amended C8, at a sink that throws on its third
invocation during a full upload run. -/
theorem c8_sink_amended_witness :
    transcribeMedia c8env (some lateSink) = transcribeMedia c8env (some okSink) ∨
    ((transcribeMedia c8env (some lateSink)).2 =
        Except.error (if strIncludes "late boom" "404" then MSG404 else "late boom") ∧
      (transcribeMedia c8env (some lateSink)).1.logCount = 2 ∧
      (transcribeMedia c8env (some lateSink)).1.logs =
        ((transcribeMedia c8env (some okSink)).1.logs).take 2) :=
  c8_sink_amended.2.1 c8env lateSink 2 "late boom"
    (by
      intro j hj
      have hne : j ≠ 2 := by omega
      simp [lateSink, hne]) rfl
